import Mathlib

/-!
Verification of the rxiv-maker Markdown→LaTeX conversion engine.

The Python sources under `src/py/converters/` (`md2tex.py`, `table_processor.py`,
`figure_processor.py`, `text_formatters.py`, `supplementary_note_processor.py`)
are shallowly embedded here.  Strings are modelled as `List Char`; each Python
`re.sub` pass is compiled to an explicit scanner built from a per-pattern
matcher (leftmost scan, replacement text never rescanned, greedy/lazy
quantifiers and backtracking reproduced per pattern).  Fuel arguments bound the
recursion; every wrapper supplies fuel that exceeds the number of scan steps,
so the fuel never runs out on the inputs considered.
-/

set_option maxRecDepth 100000

abbrev Chars := List Char

def strChars (s : String) : Chars := s.data

/-- Is `p` a prefix of `l`?  (Bool version used by the scanners.) -/
def hasPrefixChars : Chars → Chars → Bool
  | [], _ => true
  | _ :: _, [] => false
  | p :: ps, c :: cs => p = c && hasPrefixChars ps cs

/-- Python `pat in l` (substring containment). -/
def containsSub (pat : Chars) : Chars → Bool
  | [] => hasPrefixChars pat []
  | c :: cs => hasPrefixChars pat (c :: cs) || containsSub pat cs

/-- Python `str.replace` (replace every non-overlapping occurrence, scanning
left to right).  All call sites use a nonempty pattern. -/
def replaceAllGo (pat rep : Chars) : Nat → Chars → Chars
  | 0, l => l
  | _ + 1, [] => []
  | f + 1, c :: cs =>
    if pat ≠ [] ∧ hasPrefixChars pat (c :: cs) then
      rep ++ replaceAllGo pat rep f ((c :: cs).drop pat.length)
    else
      c :: replaceAllGo pat rep f cs

def replaceAll (pat rep l : Chars) : Chars := replaceAllGo pat rep l.length l

/-- Python `str.split(sep)` with a nonempty literal separator. -/
def pySplitGo (sep : Chars) : Nat → Chars → Chars → List Chars
  | 0, acc, l => [acc.reverse ++ l]
  | _ + 1, acc, [] => [acc.reverse]
  | f + 1, acc, c :: cs =>
    if sep ≠ [] ∧ hasPrefixChars sep (c :: cs) then
      acc.reverse :: pySplitGo sep f [] ((c :: cs).drop sep.length)
    else
      pySplitGo sep f (c :: acc) cs

def pySplit (sep l : Chars) : List Chars := pySplitGo sep l.length [] l

/-- `sep.join parts`. -/
def joinWith (sep : Chars) : List Chars → Chars
  | [] => []
  | [x] => x
  | x :: y :: xs => x ++ sep ++ joinWith sep (y :: xs)

def isPyWhitespace (c : Char) : Bool :=
  c = ' ' || c = '\t' || c = '\n' || c = '\r' || c = '\x0b' || c = '\x0c'

def lstripWs (l : Chars) : Chars := l.dropWhile isPyWhitespace

def rstripWs (l : Chars) : Chars := (l.reverse.dropWhile isPyWhitespace).reverse

/-- Python `str.strip()`. -/
def pyStrip (l : Chars) : Chars := rstripWs (lstripWs l)

/-- Python `str.strip(chars)` for a single strip character. -/
def stripCharBoth (ch : Char) (l : Chars) : Chars :=
  ((l.dropWhile (· = ch)).reverse.dropWhile (· = ch)).reverse

/-- Python `str.lstrip(chars)` for a single strip character. -/
def lstripChar (ch : Char) (l : Chars) : Chars := l.dropWhile (· = ch)

/-- Python `str.lower()` (ASCII, which is all the engine handles). -/
def pyLower (l : Chars) : Chars := l.map Char.toLower

def startsWithChars (pat l : Chars) : Bool := hasPrefixChars pat l

def endsWithChars (pat l : Chars) : Bool := hasPrefixChars pat.reverse l.reverse

/-- Python regex `\w` on ASCII input. -/
def isWordChar (c : Char) : Bool := c.isAlphanum || c = '_'

/-- `str.rfind(ch)` as an optional index of the last occurrence. -/
def rfindChar : Chars → Char → Option Nat
  | [], _ => none
  | x :: xs, c =>
    match rfindChar xs c with
    | some i => some (i + 1)
    | none => if x = c then some 0 else none

/-- Split into lines at `'\n'` (Python `text.split("\n")`). -/
def splitLines (l : Chars) : List Chars := pySplit ['\n'] l

def joinLines (ls : List Chars) : Chars := joinWith ['\n'] ls

/-!  Generic scanners implementing `re.sub` for a hand-compiled matcher.

A matcher takes the current suffix and returns `(replacement, consumed, rest)`
on success, where the suffix is `consumed ++ rest` and `consumed ≠ []` (every
pattern in the engine consumes at least one character).  Replacements are
emitted verbatim and never rescanned, exactly like `re.sub`. -/

def subst (m : Chars → Option (Chars × Chars × Chars)) : Nat → Chars → Chars
  | 0, l => l
  | _ + 1, [] => []
  | f + 1, c :: cs =>
    match m (c :: cs) with
    | some (rep, _, rest) => rep ++ subst m f rest
    | none => c :: subst m f cs

/-- Like `subst` but the matcher also sees the previous character of the
original string (for `\b` word boundaries and look-behinds such as `(?<!\*)`;
`re` inspects the original string there, so the previous character is taken
from the consumed original text, not from any replacement). -/
def substPrev (m : Option Char → Chars → Option (Chars × Chars × Chars)) :
    Nat → Option Char → Chars → Chars
  | 0, _, l => l
  | _ + 1, _, [] => []
  | f + 1, prev, c :: cs =>
    match m prev (c :: cs) with
    | some (rep, consumed, rest) =>
        rep ++ substPrev m f (match consumed.getLast? with
          | some d => some d
          | none => prev) rest
    | none => c :: substPrev m f (some c) cs

/-- Like `subst` but the matcher is only tried at line starts (`re.MULTILINE`
`^`-anchored patterns).  The Bool tracks "currently at a line start". -/
def substLS (m : Chars → Option (Chars × Chars × Chars)) : Nat → Bool → Chars → Chars
  | 0, _, l => l
  | _ + 1, _, [] => []
  | f + 1, atLS, c :: cs =>
    match if atLS then m (c :: cs) else none with
    | some (rep, consumed, rest) =>
        rep ++ substLS m f (match consumed.getLast? with
          | some d => d = '\n'
          | none => atLS) rest
    | none => c :: substLS m f (c = '\n') cs

/-- Stateful `re.sub` (callbacks that append to a protection map). -/
def substSt {σ : Type} (m : σ → Chars → Option (Chars × Chars × Chars × σ)) :
    Nat → σ → Chars → Chars × σ
  | 0, st, l => (l, st)
  | _ + 1, st, [] => ([], st)
  | f + 1, st, c :: cs =>
    match m st (c :: cs) with
    | some (rep, _, rest, st') =>
        let r := substSt m f st' rest
        (rep ++ r.1, r.2)
    | none =>
        let r := substSt m f st cs
        (c :: r.1, r.2)

/-- Stateful, line-start-anchored `re.sub`. -/
def substStLS {σ : Type} (m : σ → Chars → Option (Chars × Chars × Chars × σ)) :
    Nat → Bool → σ → Chars → Chars × σ
  | 0, _, st, l => (l, st)
  | _ + 1, _, st, [] => ([], st)
  | f + 1, atLS, st, c :: cs =>
    match if atLS then m st (c :: cs) else none with
    | some (rep, consumed, rest, st') =>
        let r := substStLS m f (match consumed.getLast? with
          | some d => d = '\n'
          | none => atLS) st' rest
        (rep ++ r.1, r.2)
    | none =>
        let r := substStLS m f (c = '\n') st cs
        (c :: r.1, r.2)

/-- `re.split` with one capturing group spanning the whole pattern: the result
alternates unmatched text and the captured separators. -/
def splitCapGo (m : Chars → Option (Chars × Chars)) : Nat → Chars → Chars → List Chars
  | 0, acc, l => [acc.reverse ++ l]
  | _ + 1, acc, [] => [acc.reverse]
  | f + 1, acc, c :: cs =>
    match m (c :: cs) with
    | some (sep, rest) => acc.reverse :: sep :: splitCapGo m f [] rest
    | none => splitCapGo m f (c :: acc) cs

def splitCap (m : Chars → Option (Chars × Chars)) (l : Chars) : List Chars :=
  splitCapGo m l.length [] l

/-- Take the maximal prefix whose characters satisfy `p`, returning it with the
rest (greedy character-class run). -/
def spanRun (p : Char → Bool) (l : Chars) : Chars × Chars :=
  (l.takeWhile p, l.dropWhile p)

/-- Find the earliest occurrence of a terminator recognised by `stop`
(which returns the consumed terminator and the rest); returns
`(body-before-terminator, rest-after-terminator)`.  This implements a lazy
`.*?`/`[^x]*?` up to a delimiter. -/
def findStop (stop : Chars → Option (Chars × Chars)) : Nat → Chars → Option (Chars × Chars)
  | 0, _ => none
  | _ + 1, [] => none
  | f + 1, c :: cs =>
    match stop (c :: cs) with
    | some (_, rest) => some ([], rest)
    | none =>
      match findStop stop f cs with
      | some (body, rest) => some (c :: body, rest)
      | none => none

/-- Version of `findStop` whose lazy body may not contain `'\n'`
(`.*?` without `re.DOTALL`). -/
def findStopNoNl (stop : Chars → Option (Chars × Chars)) :
    Nat → Chars → Option (Chars × Chars)
  | 0, _ => none
  | _ + 1, [] => none
  | f + 1, c :: cs =>
    match stop (c :: cs) with
    | some (_, rest) => some ([], rest)
    | none =>
      if c = '\n' then none
      else
        match findStopNoNl stop f cs with
        | some (body, rest) => some (c :: body, rest)
        | none => none

/-- Literal-terminator instance of `findStop`. -/
def stopLit (pat : Chars) (l : Chars) : Option (Chars × Chars) :=
  if hasPrefixChars pat l then some (pat, l.drop pat.length) else none

/-! Assoc-list model of Python dicts (insertion-ordered, assignment overwrites
in place, `items()` iterates in insertion order). -/

abbrev PyDict := List (Chars × Chars)

def assocSet (m : PyDict) (k v : Chars) : PyDict :=
  match m with
  | [] => [(k, v)]
  | (k', v') :: rest => if k' = k then (k, v) :: rest else (k', v') :: assocSet rest k v

def assocGet (m : PyDict) (k : Chars) : Option Chars :=
  match m with
  | [] => none
  | (k', v') :: rest => if k' = k then some v' else assocGet rest k

def assocGetD (m : PyDict) (k d : Chars) : Chars := (assocGet m k).getD d

def natChars (n : Nat) : Chars := Nat.toDigits 10 n

/-- `for placeholder, original in m.items(): content = content.replace(placeholder, original)` -/
def restoreMap (m : PyDict) (content : Chars) : Chars :=
  m.foldl (fun c kv => replaceAll kv.1 kv.2 c) content

/-! ## `md2tex.py` -/

namespace md2tex

/-! ### `convert_code_blocks_to_latex` -/

def languageMap (lang : Chars) : Chars :=
  if lang = strChars "yml" then strChars "yaml"
  else if lang = strChars "sh" then strChars "bash"
  else if lang = strChars "shell" then strChars "bash"
  else if lang = strChars "js" then strChars "javascript"
  else if lang = strChars "ts" then strChars "typescript"
  else if lang = strChars "py" then strChars "python"
  else if lang = strChars "md" then strChars "markdown"
  else if lang = strChars "tex" then strChars "latex"
  else if lang = strChars "bib" then strChars "bibtex"
  else lang

def supportedLanguages : List Chars :=
  [strChars "yaml", strChars "markdown", strChars "python", strChars "bash",
   strChars "javascript", strChars "typescript", strChars "latex", strChars "json",
   strChars "xml", strChars "html", strChars "css", strChars "bibtex"]

/-- Closing-fence terminator for `\n```$`: a newline, three backticks, then an
end of line. -/
def stopFence (l : Chars) : Option (Chars × Chars) :=
  if hasPrefixChars (strChars "\n```") l then
    let r := l.drop 4
    if r = [] ∨ r.head? = some '\n' then some (strChars "\n```", r) else none
  else none

/-- Matcher for `^```(?:\w+)?\n(.*?)\n```$` (MULTILINE|DOTALL) together with the
`process_fenced_code_block` callback. -/
def fencedMatch (l : Chars) : Option (Chars × Chars × Chars) :=
  if hasPrefixChars (strChars "```") l then
    let afterTicks := l.drop 3
    let lang := afterTicks.takeWhile isWordChar
    let afterLang := afterTicks.drop lang.length
    match afterLang with
    | '\n' :: afterNl =>
      match findStop stopFence afterNl.length afterNl with
      | some (body, rest) =>
        let consumed := strChars "```" ++ lang ++ ['\n'] ++ body ++ strChars "\n```"
        let mapped := languageMap (pyLower lang)
        let rep :=
          if lang ≠ [] ∧ mapped ∈ supportedLanguages then
            strChars "\\begin\x7bminted\x7d\x7b" ++ mapped ++ strChars "\x7d\n" ++ body ++
              strChars "\n\\end\x7bminted\x7d"
          else
            strChars "\\begin\x7bverbatim\x7d\n" ++ body ++ strChars "\n\\end\x7bverbatim\x7d"
        some (rep, consumed, rest)
      | none => none
    | _ => none
  else none

def dropTrailingBlank (ls : List Chars) : List Chars :=
  (ls.reverse.dropWhile (fun l => pyStrip l = [])).reverse

/-- The inner `while` collecting consecutive 4-space-indented (or blank) lines. -/
def collectIndented : Nat → List Chars → List Chars × List Chars
  | 0, ls => ([], ls)
  | _ + 1, [] => ([], [])
  | f + 1, line :: rest =>
    if startsWithChars (strChars "    ") line ∨ pyStrip line = [] then
      let stripped := if startsWithChars (strChars "    ") line then line.drop 4 else line
      let r := collectIndented f rest
      (stripped :: r.1, r.2)
    else ([], line :: rest)

/-- The line scanner for indented code blocks, tracking the
verbatim/minted-environment state. -/
def indentedGo : Nat → Bool → List Chars → List Chars
  | 0, _, ls => ls
  | _ + 1, _, [] => []
  | f + 1, inEnv, line :: rest =>
    if containsSub (strChars "\\begin\x7bverbatim\x7d") line ∨
        containsSub (strChars "\\begin\x7bminted\x7d") line then
      line :: indentedGo f true rest
    else if containsSub (strChars "\\end\x7bverbatim\x7d") line ∨
        containsSub (strChars "\\end\x7bminted\x7d") line then
      line :: indentedGo f false rest
    else if inEnv then
      line :: indentedGo f inEnv rest
    else if startsWithChars (strChars "    ") line ∧ pyStrip line ≠ [] then
      let c := collectIndented (f + 1) (line :: rest)
      let code := dropTrailingBlank c.1
      (if code = [] then []
       else strChars "\\begin\x7bverbatim\x7d" :: code ++ [strChars "\\end\x7bverbatim\x7d"]) ++
        indentedGo f inEnv c.2
    else
      line :: indentedGo f inEnv rest

def convert_code_blocks_to_latex (text : Chars) : Chars :=
  let text := substLS fencedMatch text.length true text
  let lines := splitLines text
  joinLines (indentedGo lines.length false lines)

/-! ### Verbatim/minted protection inside `convert_markdown_to_latex` -/

def verbatimPlaceholder (n : Nat) : Chars :=
  strChars "XXPROTECTEDVERBATIMXX" ++ natChars n ++ strChars "XXPROTECTEDVERBATIMXX"

def protectVerbatimMatch (st : PyDict) (l : Chars) : Option (Chars × Chars × Chars × PyDict) :=
  let b := strChars "\\begin\x7bverbatim\x7d"
  if hasPrefixChars b l then
    let afterB := l.drop b.length
    match findStop (stopLit (strChars "\\end\x7bverbatim\x7d")) afterB.length afterB with
    | some (body, rest) =>
      let consumed := b ++ body ++ strChars "\\end\x7bverbatim\x7d"
      let ph := verbatimPlaceholder st.length
      some (ph, consumed, rest, st ++ [(ph, consumed)])
    | none => none
  else none

def protectMintedMatch (st : PyDict) (l : Chars) : Option (Chars × Chars × Chars × PyDict) :=
  let b := strChars "\\begin\x7bminted\x7d\x7b"
  if hasPrefixChars b l then
    let afterB := l.drop b.length
    let lang := afterB.takeWhile (· ≠ '}')
    if lang ≠ [] ∧ (afterB.drop lang.length).head? = some '}' then
      let afterLang := afterB.drop (lang.length + 1)
      match findStop (stopLit (strChars "\\end\x7bminted\x7d")) afterLang.length afterLang with
      | some (body, rest) =>
        let consumed := b ++ lang ++ ['}'] ++ body ++ strChars "\\end\x7bminted\x7d"
        let ph := verbatimPlaceholder st.length
        some (ph, consumed, rest, st ++ [(ph, consumed)])
      | none => none
    else none
  else none

/-! ### Markdown-table protection (`(?:^[ \t]*\|.*\|[ \t]*$\s*)+`, MULTILINE) -/

def isSpTab (c : Char) : Bool := c = ' ' || c = '\t'

/-- One line matches `[ \t]*\|.*\|[ \t]*$` (at least two pipe characters). -/
def lineIsTableRow (line : Chars) : Bool :=
  let s := ((line.dropWhile isSpTab).reverse.dropWhile isSpTab).reverse
  hasPrefixChars ['|'] s ∧ hasPrefixChars ['|'] s.reverse ∧ 2 ≤ s.length

def splitAtLastNl (ws : Chars) : Option (Chars × Chars) :=
  match rfindChar ws '\n' with
  | some i => some (ws.take (i + 1), ws.drop (i + 1))
  | none => none

/-- Consume a maximal run of pipe-table lines plus the trailing greedy `\s*`.
Precondition: the current position starts a matching table line. -/
def mdTableGo : Nat → Chars → Chars × Chars
  | 0, l => ([], l)
  | f + 1, l =>
    let line := l.takeWhile (· ≠ '\n')
    let rest0 := l.drop line.length
    let ws := rest0.takeWhile isPyWhitespace
    let tail := rest0.drop ws.length
    match splitAtLastNl ws with
    | some (upToNl, afterNl) =>
      let nextLine := afterNl ++ tail.takeWhile (· ≠ '\n')
      if afterNl.all isSpTab ∧ lineIsTableRow nextLine then
        let r := mdTableGo f (afterNl ++ tail)
        (line ++ upToNl ++ r.1, r.2)
      else (line ++ ws, tail)
    | none => (line ++ ws, tail)

def mdTablePlaceholder (n : Nat) : Chars :=
  strChars "XXPROTECTEDMARKDOWNTABLEXX" ++ natChars n ++ strChars "XXPROTECTEDMARKDOWNTABLEXX"

def protectMdTableMatch (st : PyDict) (l : Chars) : Option (Chars × Chars × Chars × PyDict) :=
  if lineIsTableRow (l.takeWhile (· ≠ '\n')) then
    let r := mdTableGo l.length l
    let ph := mdTablePlaceholder st.length
    some (ph, r.1, r.2, st ++ [(ph, r.1)])
  else none

/-! ### Backtick protection -/

def backtickPlaceholder (n : Nat) : Chars :=
  strChars "XXPROTECTEDBACKTICKXX" ++ natChars n ++ strChars "XXPROTECTEDBACKTICKXX"

/-- Matcher for ```` ``[^`]+`` ````. -/
def doubleBacktickMatch (l : Chars) : Option (Chars × Chars) :=
  if hasPrefixChars (strChars "``") l then
    let afterB := l.drop 2
    let body := afterB.takeWhile (· ≠ '`')
    if body ≠ [] ∧ hasPrefixChars (strChars "``") (afterB.drop body.length) then
      some (strChars "``" ++ body ++ strChars "``", afterB.drop (body.length + 2))
    else none
  else none

/-- Matcher for `` `[^`]+` ``. -/
def singleBacktickMatch (l : Chars) : Option (Chars × Chars) :=
  match l with
  | '`' :: afterB =>
    let body := afterB.takeWhile (· ≠ '`')
    if body ≠ [] ∧ (afterB.drop body.length).head? = some '`' then
      some ('`' :: body ++ ['`'], afterB.drop (body.length + 1))
    else none
  | _ => none

def protectBacktickMatchD (st : PyDict) (l : Chars) : Option (Chars × Chars × Chars × PyDict) :=
  match doubleBacktickMatch l with
  | some (consumed, rest) =>
    let ph := backtickPlaceholder st.length
    some (ph, consumed, rest, st ++ [(ph, consumed)])
  | none => none

def protectBacktickMatchS (st : PyDict) (l : Chars) : Option (Chars × Chars × Chars × PyDict) :=
  match singleBacktickMatch l with
  | some (consumed, rest) =>
    let ph := backtickPlaceholder st.length
    some (ph, consumed, rest, st ++ [(ph, consumed)])
  | none => none

/-! ### `convert_html_comments_to_latex` -/

def htmlCommentReplace (body : Chars) : Chars :=
  let lines := pySplit ['\n'] body
  joinLines (lines.map fun line =>
    let s := pyStrip line
    if s ≠ [] then strChars "% " ++ s else ['%'])

def htmlCommentMatch (l : Chars) : Option (Chars × Chars × Chars) :=
  if hasPrefixChars (strChars "<!--") l then
    let afterO := l.drop 4
    match findStop (stopLit (strChars "-->")) afterO.length afterO with
    | some (body, rest) =>
      some (htmlCommentReplace body, strChars "<!--" ++ body ++ strChars "-->", rest)
    | none => none
  else none

def convert_html_comments_to_latex (text : Chars) : Chars :=
  subst htmlCommentMatch text.length text

/-! ### `convert_html_tags_to_latex` -/

def hasPrefixCI (pat l : Chars) : Bool := hasPrefixChars (pyLower pat) (pyLower (l.take pat.length))

def stopLitCI (pat : Chars) (l : Chars) : Option (Chars × Chars) :=
  if hasPrefixCI pat l then some (l.take pat.length, l.drop pat.length) else none

/-- `<br\s*/?>` (IGNORECASE). -/
def brMatch (l : Chars) : Option (Chars × Chars × Chars) :=
  if hasPrefixCI (strChars "<br") l then
    let after := l.drop 3
    let ws := after.takeWhile isPyWhitespace
    let t := after.drop ws.length
    let t2 := if t.head? = some '/' then t.drop 1 else t
    if t2.head? = some '>' then
      some (strChars "\\\\", l.take (l.length - (t2.length - 1)), t2.drop 1)
    else none
  else none

/-- `<tag>(.*?)</tag>` (IGNORECASE|DOTALL) → `cmd{...}`. -/
def pairTagMatch (tag cmd : Chars) (l : Chars) : Option (Chars × Chars × Chars) :=
  let opener := '<' :: tag ++ ['>']
  if hasPrefixCI opener l then
    let after := l.drop opener.length
    let closer := strChars "</" ++ tag ++ ['>']
    match findStop (stopLitCI closer) after.length after with
    | some (body, rest) =>
      some (cmd ++ ['\x7b'] ++ body ++ ['\x7d'],
            l.take (l.length - rest.length), rest)
    | none => none
  else none

def convert_html_tags_to_latex (text : Chars) : Chars :=
  let text := subst brMatch text.length text
  let text := subst (pairTagMatch (strChars "b") (strChars "\\textbf")) text.length text
  let text := subst (pairTagMatch (strChars "strong") (strChars "\\textbf")) text.length text
  let text := subst (pairTagMatch (strChars "i") (strChars "\\textit")) text.length text
  let text := subst (pairTagMatch (strChars "em") (strChars "\\textit")) text.length text
  subst (pairTagMatch (strChars "code") (strChars "\\texttt")) text.length text

end md2tex

/-! Shared regex passes used by the cell/caption formatters. -/

def isDigitChar (c : Char) : Bool := c.isDigit

def parseNatDigits (l : Chars) : Nat := l.foldl (fun n c => 10 * n + (c.toNat - 48)) 0

/-- `\*\*([^*]+)\*\*` → `\textbf{...}`. -/
def boldClassMatch (l : Chars) : Option (Chars × Chars × Chars) :=
  if hasPrefixChars (strChars "**") l then
    let after := l.drop 2
    let body := after.takeWhile (· ≠ '*')
    if body ≠ [] ∧ hasPrefixChars (strChars "**") (after.drop body.length) then
      some (strChars "\\textbf\x7b" ++ body ++ ['\x7d'],
            strChars "**" ++ body ++ strChars "**", after.drop (body.length + 2))
    else none
  else none

def boldClassSub (l : Chars) : Chars := subst boldClassMatch l.length l

/-- `\*([^*]+)\*` → `\textit{...}`. -/
def italicClassMatch (l : Chars) : Option (Chars × Chars × Chars) :=
  match l with
  | '*' :: after =>
    let body := after.takeWhile (· ≠ '*')
    if body ≠ [] ∧ (after.drop body.length).head? = some '*' then
      some (strChars "\\textit\x7b" ++ body ++ ['\x7d'],
            '*' :: body ++ ['*'], after.drop (body.length + 1))
    else none
  | _ => none

def italicClassSub (l : Chars) : Chars := subst italicClassMatch l.length l

/-- `\*\*(.+?)\*\*` (lazy, `.` does not match a newline) → `\textbf{...}`. -/
def boldLazyMatch (l : Chars) : Option (Chars × Chars × Chars) :=
  if hasPrefixChars (strChars "**") l then
    match l.drop 2 with
    | c :: cs =>
      if c = '\n' then none
      else
        match findStopNoNl (stopLit (strChars "**")) cs.length cs with
        | some (bodyTail, rest) =>
          let body := c :: bodyTail
          some (strChars "\\textbf\x7b" ++ body ++ ['\x7d'],
                strChars "**" ++ body ++ strChars "**", rest)
        | none => none
    | [] => none
  else none

def boldLazySub (l : Chars) : Chars := subst boldLazyMatch l.length l

/-- `\*(.+?)\*` (lazy) → `\textit{...}`. -/
def italicLazyMatch (l : Chars) : Option (Chars × Chars × Chars) :=
  match l with
  | '*' :: c :: cs =>
    if c = '\n' then none
    else
      match findStopNoNl (stopLit ['*']) cs.length cs with
      | some (bodyTail, rest) =>
        let body := c :: bodyTail
        some (strChars "\\textit\x7b" ++ body ++ ['\x7d'],
              '*' :: body ++ ['*'], rest)
      | none => none
  | _ => none

def italicLazySub (l : Chars) : Chars := subst italicLazyMatch l.length l

/-- `\*\*(.*?)\*\*` → `\1` (used to strip bold markers from a header). -/
def boldStripMatch (l : Chars) : Option (Chars × Chars × Chars) :=
  if hasPrefixChars (strChars "**") l then
    let after := l.drop 2
    match findStopNoNl (stopLit (strChars "**")) after.length after with
    | some (body, rest) =>
      some (body, strChars "**" ++ body ++ strChars "**", rest)
    | none => none
  else none

def boldStripSub (l : Chars) : Chars := subst boldStripMatch l.length l

/-- `\*(.*?)\*` → `\1`. -/
def italicStripMatch (l : Chars) : Option (Chars × Chars × Chars) :=
  match l with
  | '*' :: after =>
    match findStopNoNl (stopLit ['*']) after.length after with
    | some (body, rest) => some (body, '*' :: body ++ ['*'], rest)
    | none => none
  | _ => none

def italicStripSub (l : Chars) : Chars := subst italicStripMatch l.length l

/-- Matcher for the split pattern `(\\texttt\{[^}]*\})`. -/
def textttBlockMatch (l : Chars) : Option (Chars × Chars) :=
  let opener := strChars "\\texttt\x7b"
  if hasPrefixChars opener l then
    let after := l.drop opener.length
    let body := after.takeWhile (· ≠ '}')
    if (after.drop body.length).head? = some '}' then
      some (opener ++ body ++ ['\x7d'], after.drop (body.length + 1))
    else none
  else none

def splitTexttt (l : Chars) : List Chars := splitCap textttBlockMatch l

/-- `(?<!\*)\*([^*\s][^*]*[^*\s]|\w)\*(?!\*)` → `\textit{...}`. -/
def italicGuardMatch (prev : Option Char) (l : Chars) : Option (Chars × Chars × Chars) :=
  match l with
  | '*' :: rest =>
    if prev = some '*' then none
    else
      let run := rest.takeWhile (· ≠ '*')
      let afterRun := rest.drop run.length
      let closeOk := afterRun.head? = some '*' ∧ (afterRun.drop 1).head? ≠ some '*'
      if 2 ≤ run.length ∧ ¬ isPyWhitespace (run.headD ' ') ∧
          ¬ isPyWhitespace (run.getLastD ' ') ∧ closeOk then
        some (strChars "\\textit\x7b" ++ run ++ ['\x7d'], '*' :: run ++ ['*'], afterRun.drop 1)
      else if run.length = 1 ∧ isWordChar (run.headD ' ') ∧ closeOk then
        some (strChars "\\textit\x7b" ++ run ++ ['\x7d'], '*' :: run ++ ['*'], afterRun.drop 1)
      else none
  | _ => none

def italicGuardSub (l : Chars) : Chars := substPrev italicGuardMatch l.length none l

/-- `\s+` → `" "` (whitespace collapsing inside table code cells). -/
def wsCollapseMatch (l : Chars) : Option (Chars × Chars × Chars) :=
  let run := l.takeWhile isPyWhitespace
  if run ≠ [] then some ([' '], run, l.drop run.length) else none

def wsCollapseSub (l : Chars) : Chars := subst wsCollapseMatch l.length l

/-- The plain special-character escapes applied outside `\texttt{}` blocks. -/
def escapePlainSpecials (l : Chars) : Chars :=
  let l := replaceAll (strChars "&") (strChars "\\&") l
  let l := replaceAll (strChars "%") (strChars "\\%") l
  let l := replaceAll (strChars "$") (strChars "\\$") l
  let l := replaceAll (strChars "#") (strChars "\\#") l
  let l := replaceAll (strChars "^") (strChars "\\textasciicircum\x7b\x7d") l
  let l := replaceAll (strChars "~") (strChars "\\textasciitilde\x7b\x7d") l
  replaceAll (strChars "_") (strChars "\\_") l

/-- `escape_outside_texttt`: split on `\texttt{...}` blocks, escape only the
parts that do not start such a block. -/
def escapeOutsideTexttt (l : Chars) : Chars :=
  ((splitTexttt l).map fun part =>
    if startsWithChars (strChars "\\texttt\x7b") part then part
    else escapePlainSpecials part).flatten

/-- `rotate=(\d+)` via `re.search`. -/
def searchRotate : Chars → Option Nat
  | [] => none
  | c :: cs =>
    let l := c :: cs
    if hasPrefixChars (strChars "rotate=") l then
      let digits := (l.drop 7).takeWhile isDigitChar
      if digits ≠ [] then some (parseNatDigits digits) else searchRotate cs
    else searchRotate cs

def optNatTruthy : Option Nat → Bool
  | none => false
  | some n => n ≠ 0

def optStrTruthy : Option Chars → Bool
  | none => false
  | some c => c ≠ []

namespace md2tex

/-! ### `convert_lists_to_latex` -/

/-- `^\s*[-*]\s+`. -/
def matchesUL (line : Chars) : Bool :=
  let after := line.dropWhile isPyWhitespace
  match after with
  | c :: d :: _ => (c = '-' ∨ c = '*') ∧ isPyWhitespace d
  | _ => false

/-- `^\s{0,k}[-*]\s+`. -/
def matchesULBounded (k : Nat) (line : Chars) : Bool :=
  (line.takeWhile isPyWhitespace).length ≤ k ∧ matchesUL line

/-- `re.sub(r"^\s*[-*]\s+", "", line)` when the line is known to match. -/
def ulContent (line : Chars) : Chars :=
  (((line.dropWhile isPyWhitespace).drop 1).dropWhile isPyWhitespace)

/-- `^\s*\d+[.)]\s+`. -/
def matchesOL (line : Chars) : Bool :=
  let after := line.dropWhile isPyWhitespace
  let ds := after.takeWhile isDigitChar
  ds ≠ [] &&
    match after.drop ds.length with
    | c :: d :: _ => (c = '.' || c = ')') && isPyWhitespace d
    | _ => false

def matchesOLBounded (k : Nat) (line : Chars) : Bool :=
  (line.takeWhile isPyWhitespace).length ≤ k ∧ matchesOL line

def olContent (line : Chars) : Chars :=
  let after := line.dropWhile isPyWhitespace
  let ds := after.takeWhile isDigitChar
  ((after.drop ds.length).drop 1).dropWhile isPyWhitespace

def indentOf (line : Chars) : Nat := line.length - (line.dropWhile isPyWhitespace).length

/-- The item-collection `while` loop shared shape (parameterised by the bounded
item test and the content extractor). -/
def collectItems (test : Chars → Bool) (content : Chars → Chars) :
    Nat → List Chars → List Chars × List Chars
  | 0, ls => ([], ls)
  | _ + 1, [] => ([], [])
  | f + 1, line :: rest =>
    if test line then
      let r := collectItems test content f rest
      ((strChars "  \\item " ++ content line) :: r.1, r.2)
    else if pyStrip line = [] then
      match rest with
      | next :: _ =>
        if test next then collectItems test content f rest else ([], rest)
      | [] => ([], [])
    else ([], line :: rest)

def listsGo : Nat → List Chars → List Chars
  | 0, ls => ls
  | _ + 1, [] => []
  | f + 1, line :: rest =>
    if matchesUL line then
      let k := indentOf line + 2
      let c := collectItems (matchesULBounded k) ulContent (f + 1) (line :: rest)
      strChars "\\begin\x7bitemize\x7d" ::
        (c.1 ++ (strChars "\\end\x7bitemize\x7d" :: listsGo f c.2))
    else if matchesOL line then
      let k := indentOf line + 2
      let c := collectItems (matchesOLBounded k) olContent (f + 1) (line :: rest)
      strChars "\\begin\x7benumerate\x7d" ::
        (c.1 ++ (strChars "\\end\x7benumerate\x7d" :: listsGo f c.2))
    else
      line :: listsGo f rest

def convert_lists_to_latex (text : Chars) : Chars :=
  let lines := splitLines text
  joinLines (listsGo lines.length lines)

/-! ### Table conversion (`convert_tables_to_latex` / `generate_latex_table`,
the `md2tex.py` copies) -/

/-- Escape chain of `process_code_only` (markdown-syntax cells, backtick runs;
uses `\lbrack{}`/`\rbrack{}` for brackets). -/
def escapeCodeMdCell (l : Chars) : Chars :=
  let l := replaceAll (strChars "\\") (strChars "\\textbackslash\x7b\x7d") l
  let l := replaceAll (strChars "\x7b") (strChars "\\\x7b") l
  let l := replaceAll (strChars "\x7d") (strChars "\\\x7d") l
  let l := replaceAll (strChars "&") (strChars "\\&") l
  let l := replaceAll (strChars "%") (strChars "\\%") l
  let l := replaceAll (strChars "$") (strChars "\\$") l
  let l := replaceAll (strChars "#") (strChars "\\#") l
  let l := replaceAll (strChars "^") (strChars "\\textasciicircum\x7b\x7d") l
  let l := replaceAll (strChars "~") (strChars "\\textasciitilde\x7b\x7d") l
  let l := replaceAll (strChars "_") (strChars "\\_") l
  let l := replaceAll (strChars "[") (strChars "\\lbrack\x7b\x7d") l
  let l := replaceAll (strChars "]") (strChars "\\rbrack\x7b\x7d") l
  let l := replaceAll (strChars "@") (strChars "\\@") l
  replaceAll (strChars ";") (strChars ";") l

/-- Escape chain of the whole-cell wrap branch in `format_cell`
(uses `\[`/`\]` for brackets). -/
def escapeWrapMdCell (l : Chars) : Chars :=
  let l := replaceAll (strChars "\\") (strChars "\\textbackslash\x7b\x7d") l
  let l := replaceAll (strChars "\x7b") (strChars "\\\x7b") l
  let l := replaceAll (strChars "\x7d") (strChars "\\\x7d") l
  let l := replaceAll (strChars "&") (strChars "\\&") l
  let l := replaceAll (strChars "%") (strChars "\\%") l
  let l := replaceAll (strChars "$") (strChars "\\$") l
  let l := replaceAll (strChars "#") (strChars "\\#") l
  let l := replaceAll (strChars "^") (strChars "\\textasciicircum\x7b\x7d") l
  let l := replaceAll (strChars "~") (strChars "\\textasciitilde\x7b\x7d") l
  let l := replaceAll (strChars "_") (strChars "\\_") l
  let l := replaceAll (strChars "[") (strChars "\\[") l
  let l := replaceAll (strChars "]") (strChars "\\]") l
  let l := replaceAll (strChars "@") (strChars "\\@") l
  replaceAll (strChars ";") (strChars ";") l

/-- Escape chain of `process_code_in_table` (no brackets, no `@`), followed by
newline flattening, whitespace collapsing and stripping. -/
def processCodeInTable (body : Chars) : Chars :=
  let l := replaceAll (strChars "\\") (strChars "\\textbackslash\x7b\x7d") body
  let l := replaceAll (strChars "\x7b") (strChars "\\\x7b") l
  let l := replaceAll (strChars "\x7d") (strChars "\\\x7d") l
  let l := replaceAll (strChars "&") (strChars "\\&") l
  let l := replaceAll (strChars "%") (strChars "\\%") l
  let l := replaceAll (strChars "$") (strChars "\\$") l
  let l := replaceAll (strChars "#") (strChars "\\#") l
  let l := replaceAll (strChars "^") (strChars "\\textasciicircum\x7b\x7d") l
  let l := replaceAll (strChars "~") (strChars "\\textasciitilde\x7b\x7d") l
  let l := replaceAll (strChars "_") (strChars "\\_") l
  let l := replaceAll (strChars "\n") (strChars " ") l
  pyStrip (wsCollapseSub l)

/-- ``` ``\s*`([^`]+)`\s*`` ``` → `\texttt{\1}` (no escaping). -/
def nestedTickMatch (l : Chars) : Option (Chars × Chars × Chars) :=
  if hasPrefixChars (strChars "``") l then
    let a1 := l.drop 2
    let w1 := a1.takeWhile isPyWhitespace
    let a2 := a1.drop w1.length
    match a2 with
    | '`' :: a3 =>
      let body := a3.takeWhile (· ≠ '`')
      if body ≠ [] ∧ (a3.drop body.length).head? = some '`' then
        let a4 := a3.drop (body.length + 1)
        let w2 := a4.takeWhile isPyWhitespace
        let a5 := a4.drop w2.length
        if hasPrefixChars (strChars "``") a5 then
          some (strChars "\\texttt\x7b" ++ body ++ ['\x7d'],
                l.take (l.length - (a5.length - 2)), a5.drop 2)
        else none
      else none
    | _ => none
  else none

/-- ``` ``([^`]+)`` ``` → `process_code_in_table`. -/
def doubleTickCellMatch (l : Chars) : Option (Chars × Chars × Chars) :=
  match doubleBacktickMatch l with
  | some (consumed, rest) =>
    let body := (consumed.drop 2).dropLast.dropLast
    some (strChars "\\texttt\x7b" ++ processCodeInTable body ++ ['\x7d'], consumed, rest)
  | none => none

/-- `` `([^`]+)` `` → `process_code_in_table`. -/
def singleTickCellMatch (l : Chars) : Option (Chars × Chars × Chars) :=
  match singleBacktickMatch l with
  | some (consumed, rest) =>
    let body := (consumed.drop 1).dropLast
    some (strChars "\\texttt\x7b" ++ processCodeInTable body ++ ['\x7d'], consumed, rest)
  | none => none

/-- `replace_bold_outside_texttt` (table cells). -/
def boldOutsideTexttt (l : Chars) : Chars :=
  ((splitTexttt l).map fun part =>
    if startsWithChars (strChars "\\texttt\x7b") part then part
    else boldClassSub part).flatten

/-- `replace_italic_outside_texttt` (table cells). -/
def italicOutsideTexttt (l : Chars) : Chars :=
  ((splitTexttt l).map fun part =>
    if startsWithChars (strChars "\\texttt\x7b") part then part
    else italicGuardSub part).flatten

def format_cell (pbc : PyDict) (is_markdown_example_column is_header : Bool)
    (cell : Chars) : Chars :=
  let cell := restoreMap pbc cell
  if is_markdown_example_column ∧ is_header then
    italicClassSub (boldLazySub cell)
  else if is_markdown_example_column then
    let cell := subst (fun l =>
      match singleBacktickMatch l with
      | some (consumed, rest) =>
        let body := (consumed.drop 1).dropLast
        some (strChars "\\texttt\x7b" ++ escapeCodeMdCell body ++ ['\x7d'], consumed, rest)
      | none => none) cell.length cell
    if ¬ containsSub (strChars "\\texttt\x7b") cell then
      strChars "\\texttt\x7b" ++ escapeWrapMdCell cell ++ ['\x7d']
    else cell
  else
    let cell := subst nestedTickMatch cell.length cell
    let cell := subst doubleTickCellMatch cell.length cell
    let cell := subst singleTickCellMatch cell.length cell
    let cell := boldOutsideTexttt cell
    let cell := italicOutsideTexttt cell
    escapeOutsideTexttt cell

def generate_latex_table (headers : List Chars) (data_rows : List (List Chars))
    (caption : Option Chars) (width : Chars) (table_id : Option Chars)
    (pbc : PyDict) (rotation_angle : Option Nat) (is_supplementary : Bool) : Chars :=
  let num_cols := headers.length
  let col_spec := '|' :: (List.replicate num_cols (strChars "l|")).flatten
  let first_header_clean :=
    match headers with
    | h :: _ => italicStripSub (boldStripSub (pyStrip (pyLower h)))
    | [] => []
  let is_markdown_syntax_table := first_header_clean = strChars "markdown element"
  let formatted_headers := headers.map (format_cell pbc is_markdown_syntax_table true)
  let formatted_data_rows :=
    data_rows.map (List.map (format_cell pbc is_markdown_syntax_table false))
  let envPos : Chars × Chars :=
    if optNatTruthy rotation_angle ∧ is_supplementary then
      (if width = strChars "double" then strChars "sidewaystable*"
       else strChars "sidewaystable", strChars "[ht]")
    else if is_supplementary then
      (if width = strChars "double" then strChars "stable*" else strChars "stable",
       strChars "[ht]")
    else
      (if width = strChars "double" then strChars "table*" else strChars "table",
       if width = strChars "double" then strChars "[!ht]" else strChars "[ht]")
  let table_env := envPos.1
  let position := envPos.2
  let latex_lines :=
    [strChars "\\begin\x7b" ++ table_env ++ ['\x7d'] ++ position,
     strChars "\\centering",
     strChars "\\begin\x7btabular\x7d\x7b" ++ col_spec ++ ['\x7d'],
     strChars "\\hline",
     joinWith (strChars " & ") formatted_headers ++ strChars " \\\\",
     strChars "\\hline"] ++
    (formatted_data_rows.map fun row =>
      [joinWith (strChars " & ") row ++ strChars " \\\\", strChars "\\hline"]).flatten ++
    [strChars "\\end\x7btabular\x7d"] ++
    (if optStrTruthy caption then
      [strChars "\\raggedright",
       strChars "\\caption\x7b" ++ (caption.getD []) ++ ['\x7d'],
       strChars "\\label\x7b" ++
         (match table_id with
          | some t => if t ≠ [] then t else strChars "tab:comparison"
          | none => strChars "tab:comparison") ++ ['\x7d']]
     else []) ++
    [strChars "\\end\x7b" ++ table_env ++ ['\x7d']]
  joinLines latex_lines

/-- `re.match(r"^Table\*?\s+\d+[:.]\s*", prev.strip(), re.IGNORECASE)` plus the
caption/width extraction that follows it.  Returns `(caption, width)`. -/
def legacyCaptionParse (pl : Chars) : Option (Chars × Chars) :=
  let caption_line := pyStrip pl
  if hasPrefixCI (strChars "table") caption_line then
    let a1 := caption_line.drop 5
    let a2 := if a1.head? = some '*' then a1.drop 1 else a1
    let ws := a2.takeWhile isPyWhitespace
    let a3 := a2.drop ws.length
    let ds := a3.takeWhile isDigitChar
    let a4 := a3.drop ds.length
    if ws ≠ [] ∧ ds ≠ [] ∧ (a4.head? = some ':' ∨ a4.head? = some '.') then
      let remainder := a4.drop 1
      let caption := pyStrip (remainder.dropWhile isPyWhitespace)
      let widthv := if hasPrefixCI (strChars "table*") caption_line then
          strChars "double" else strChars "single"
      some (caption, widthv)
    else none
  else none

def isAttrIdChar (c : Char) : Bool := c.isAlphanum || c = '_' || c = ':' || c = '-'

/-- Tail test for the gate regex after a candidate `\}`:
`\s*\*\*.*\*\*` truthiness. -/
def gateTailOk (l : Chars) : Bool :=
  let t := l.dropWhile isPyWhitespace
  hasPrefixChars (strChars "**") t ∧ containsSub (strChars "**") (t.drop 2)

def existsBraceTail : Chars → Bool
  | [] => false
  | c :: cs => (c = '}' ∧ gateTailOk cs) ∨ existsBraceTail cs

/-- The gate `re.match(r"^\{#[a-zA-Z0-9_:-]+.*\}\s*\*\*.*\*\*", line)`. -/
def gateNewCaption (l : Chars) : Bool :=
  hasPrefixChars (strChars "\x7b#") l &&
    (let rest := l.drop 2
     match rest with
     | c :: cs => isAttrIdChar c && existsBraceTail cs
     | [] => false)

/-- `re.match(r"^\{#([a-zA-Z0-9_:-]+)([^}]*)\}\s*(.+)$", line)` plus the
attribute/rotation extraction and caption markdown processing; returns
`(new_format_caption, table_id, rotation_angle)`. -/
def newCaptionParse (l : Chars) : Option (Chars × Chars × Option Nat) :=
  if hasPrefixChars (strChars "\x7b#") l then
    let rest := l.drop 2
    let idrun := rest.takeWhile isAttrIdChar
    if idrun = [] then none
    else
      let rest1 := rest.drop idrun.length
      let attrs := rest1.takeWhile (· ≠ '}')
      if (rest1.drop attrs.length).head? = some '}' then
        let rest2 := rest1.drop (attrs.length + 1)
        let w := rest2.dropWhile isPyWhitespace
        let captionText :=
          if w ≠ [] then w
          else match rest2.getLast? with
            | some c => [c]
            | none => []
        if captionText = [] then none
        else
          let attrsStr := pyStrip attrs
          let rot := if attrsStr ≠ [] then searchRotate attrsStr else none
          some (italicClassSub (boldClassSub captionText), idrun, rot)
      else none
  else none

/-- The blank-line + caption-line lookahead after a table
(`lines[i].strip() == "" and re.match(gate, lines[i+1].strip())`). -/
def parse_table_caption (ls : List Chars) : Option (Chars × Chars × Option Nat) :=
  match ls with
  | l0 :: l1 :: _ =>
    if pyStrip l0 = [] ∧ gateNewCaption (pyStrip l1) then newCaptionParse (pyStrip l1)
    else none
  | _ => none

def sliceMid (xs : List Chars) : List Chars := (xs.drop 1).dropLast

def isTableStart (line : Chars) (rest : List Chars) : Bool :=
  match rest with
  | nxt :: _ =>
    containsSub ['|'] line ∧
      (let s := pyStrip line
       hasPrefixChars ['|'] s ∧ hasPrefixChars ['|'] s.reverse) ∧
      containsSub ['|'] nxt ∧ containsSub ['-'] nxt
  | [] => false

/-- The data-row collection `while` loop; returns the rows (padded/truncated to
`numCols`), the remaining lines, and the last consumed row line. -/
def collectRows (numCols : Nat) : Nat → List Chars → List (List Chars) × List Chars × Option Chars
  | 0, ls => ([], ls, none)
  | _ + 1, [] => ([], [], none)
  | f + 1, line :: rest =>
    if pyStrip line ≠ [] then
      let cur := pyStrip line
      if containsSub ['|'] cur ∧ hasPrefixChars ['|'] cur ∧ hasPrefixChars ['|'] cur.reverse then
        let cells := (sliceMid (pySplit ['|'] cur)).map pyStrip
        let padded := (cells ++ List.replicate (numCols - cells.length) []).take numCols
        let r := collectRows numCols f rest
        (padded :: r.1, r.2.1,
          match r.2.2 with
          | some x => some x
          | none => some line)
      else ([], line :: rest, none)
    else ([], line :: rest, none)

def tablesGo (pbc : PyDict) (isSupp : Bool) :
    Nat → Option Chars → List Chars → List Chars → List Chars
  | 0, _, accRev, rem => accRev.reverse ++ rem
  | _ + 1, _, accRev, [] => accRev.reverse
  | f + 1, prev, accRev, line :: rest =>
    let legacy := match prev with
      | some pl => legacyCaptionParse pl
      | none => none
    if isTableStart line rest then
      match rest with
      | sepLine :: rest2 =>
        let headerLine := pyStrip line
        let headers := (sliceMid (pySplit ['|'] headerLine)).map pyStrip
        let numCols := headers.length
        let cr := collectRows numCols rest2.length rest2
        let dataRows := cr.1
        let rest3 := cr.2.1
        let lastRow := cr.2.2
        let table_caption : Option Chars := legacy.map (·.1)
        let widthv := match legacy with
          | some p => p.2
          | none => strChars "single"
        let popCond := optStrTruthy table_caption ∧ accRev ≠ [] ∧
          startsWithChars (strChars "table")
            (pyLower (pyStrip (accRev.headD [])))
        let accRev1 := if popCond then accRev.tail else accRev
        let newfmt := parse_table_caption rest3
        let afterCap : List Chars × Option Chars :=
          match newfmt, rest3 with
          | some _, _ :: l1 :: r2 => (r2, some l1)
          | _, _ =>
            (rest3, match lastRow with
              | some x => some x
              | none => some sepLine)
        let captionArg : Option Chars :=
          match newfmt with
          | some t => some t.1
          | none => table_caption
        let tid : Option Chars := newfmt.map (·.2.1)
        let rot : Option Nat :=
          match newfmt with
          | some t => t.2.2
          | none => none
        let latexTable := generate_latex_table headers dataRows captionArg widthv tid pbc
          rot isSupp
        let emitted := pySplit ['\n'] latexTable ++ (if isSupp then [strChars "\\newpage"] else [])
        tablesGo pbc isSupp f afterCap.2 (emitted.reverse ++ accRev1) afterCap.1
      | [] => line :: accRev.reverse
    else
      tablesGo pbc isSupp f (some line) (line :: accRev) rest

def convert_tables_to_latex (text : Chars) (pbc : PyDict) (is_supplementary : Bool) : Chars :=
  let lines := splitLines text
  joinLines (tablesGo pbc is_supplementary (lines.length + 1) none [] lines)

end md2tex

/-! ## `text_formatters.py` — `escape_special_characters`
(the same code appears inline in `md2tex.convert_markdown_to_latex`). -/

/-- `\(([^)]+)\)` with the `escape_file_paths_in_parens` callback. -/
def escapeFilePathsParensMatch (l : Chars) : Option (Chars × Chars × Chars) :=
  match l with
  | '(' :: rest =>
    let body := rest.takeWhile (· ≠ ')')
    if body ≠ [] ∧ (rest.drop body.length).head? = some ')' then
      let consumed := '(' :: body ++ [')']
      let rep :=
        if (containsSub ['.'] body ∧ containsSub ['_'] body) ∨
            endsWithChars (strChars ".md") body ∨ endsWithChars (strChars ".bib") body ∨
            endsWithChars (strChars ".tex") body ∨ endsWithChars (strChars ".py") body ∨
            endsWithChars (strChars ".csv") body then
          '(' :: replaceAll ['_'] (strChars "XUNDERSCOREX") body ++ [')']
        else consumed
      some (rep, consumed, rest.drop (body.length + 1))
    else none
  | _ => none

def filenameExtList : List Chars :=
  [strChars "md", strChars "yml", strChars "yaml", strChars "bib", strChars "tex",
   strChars "py", strChars "csv", strChars "pdf", strChars "png", strChars "svg",
   strChars "jpg"]

/-- `\.(md|yml|…)\b` at the current position (alternatives tried in order). -/
def extAtBoundary (l : Chars) : Option Nat :=
  (filenameExtList.filterMap fun ext =>
    if hasPrefixChars ext l &&
        (match (l.drop ext.length).head? with
         | some c => ! isWordChar c
         | none => true) then some ext.length else none).head?

/-- Backtracking for `[\w._]*\.(ext)\b`: the `[\w._]*` run is greedy, so dot
positions are tried from the rightmost; returns the tail match length. -/
def tryDotSplit (tail : Chars) (rlen : Nat) : Nat → Option Nat
  | 0 =>
    if 0 < rlen ∧ tail.head? = some '.' then
      match extAtBoundary (tail.drop 1) with
      | some el => some (1 + el)
      | none => none
    else none
  | p + 1 =>
    (if p + 1 < rlen ∧ tail.get? (p + 1) = some '.' then
      match extAtBoundary (tail.drop (p + 2)) with
      | some el => some (p + 2 + el)
      | none => none
    else none).orElse fun _ => tryDotSplit tail rlen p

/-- Backtracking for the leading `[\w]+` of the filename pattern: the run is
greedy, so the literal `_` is looked for from the rightmost feasible spot. -/
def tryFilenameW (l : Chars) : Nat → Option Nat
  | 0 => none
  | wlen + 1 =>
    (if l.get? (wlen + 1) = some '_' then
      let tail := l.drop (wlen + 2)
      let r := tail.takeWhile fun c => isWordChar c || c = '.'
      match tryDotSplit tail r.length (if r.length = 0 then 0 else r.length - 1) with
      | some tl => some (wlen + 2 + tl)
      | none => none
    else none).orElse fun _ => tryFilenameW l wlen

/-- `\b[\w]+_[\w._]*\.(md|yml|yaml|bib|tex|py|csv|pdf|png|svg|jpg)\b` with the
underscore-escaping callback. -/
def filenameMatch (prev : Option Char) (l : Chars) : Option (Chars × Chars × Chars) :=
  let prevIsWord := match prev with
    | some c => isWordChar c
    | none => false
  if prevIsWord then none
  else
    match l.head? with
    | some c =>
      if ¬ isWordChar c then none
      else
        let w := l.takeWhile isWordChar
        match tryFilenameW l w.length with
        | some total =>
          some (replaceAll ['_'] (strChars "XUNDERSCOREX") (l.take total),
                l.take total, l.drop total)
        | none => none
    | none => none

/-- `\b\d+_[A-Z_]+\b` with the underscore-escaping callback. -/
def numberedMatch (prev : Option Char) (l : Chars) : Option (Chars × Chars × Chars) :=
  let prevIsWord := match prev with
    | some c => isWordChar c
    | none => false
  if prevIsWord then none
  else
    let ds := l.takeWhile isDigitChar
    if ds = [] then none
    else if (l.drop ds.length).head? = some '_' then
      let u := (l.drop (ds.length + 1)).takeWhile fun c => ('A' ≤ c ∧ c ≤ 'Z') ∨ c = '_'
      let total := ds.length + 1 + u.length
      let nextOk : Bool := match (l.drop total).head? with
        | some c => ! isWordChar c
        | none => true
      if u ≠ [] ∧ nextOk = true then
        some (replaceAll ['_'] (strChars "XUNDERSCOREX") (l.take total),
              l.take total, l.drop total)
      else none
    else none

/-- `text_formatters.escape_special_characters` (identical to the inline code
at the end of `md2tex.convert_markdown_to_latex`): parenthesised file paths,
filename patterns, numbered files, then the sentinel substitution. -/
def escape_special_characters (text : Chars) : Chars :=
  let text := subst escapeFilePathsParensMatch text.length text
  let text := substPrev filenameMatch text.length none text
  let text := substPrev numberedMatch text.length none text
  replaceAll (strChars "XUNDERSCOREX") (strChars "\\_") text

/-! ## Figure attribute parsing (`parse_figure_attributes`, identical in
`md2tex.py` and `figure_processor.py`). -/

def searchIdRun : Chars → Option Chars
  | [] => none
  | c :: cs =>
    if c = '#' then
      let run := cs.takeWhile (fun d => d.isAlphanum || d = '_' || d = ':' || d = '-')
      if run ≠ [] then some run else searchIdRun cs
    else searchIdRun cs

/-- One `(\w+)=(["\'])([^"\']*)\2` match at the current position. -/
def attrPairMatch (l : Chars) : Option (Chars × Chars × Chars) :=
  let k := l.takeWhile isWordChar
  if k ≠ [] ∧ (l.drop k.length).head? = some '=' then
    let afterEq := l.drop (k.length + 1)
    match afterEq.head? with
    | some q =>
      if q = '"' ∨ q = '\'' then
        let v := (afterEq.drop 1).takeWhile fun c => c ≠ '"' ∧ c ≠ '\''
        if ((afterEq.drop 1).drop v.length).head? = some q then
          some (k, v, (afterEq.drop 1).drop (v.length + 1))
        else none
      else none
    | none => none
  else none

def attrPairsScan : Nat → Chars → List (Chars × Chars)
  | 0, _ => []
  | _ + 1, [] => []
  | f + 1, c :: cs =>
    match attrPairMatch (c :: cs) with
    | some (k, v, rest) => (k, v) :: attrPairsScan f rest
    | none => attrPairsScan f cs

def parse_figure_attributes (attr_string : Chars) : PyDict :=
  let attrs : PyDict :=
    match searchIdRun attr_string with
    | some run => [(strChars "id", run)]
    | none => []
  (attrPairsScan attr_string.length attr_string).foldl
    (fun m kv => assocSet m kv.1 kv.2) attrs

def isCiteKeyChar (c : Char) : Bool := c.isAlphanum || c = '_' || c = '-'

namespace md2tex

/-! ### Figures (`convert_figures_to_latex`, the `md2tex.py` copy:
no per-figure subdirectory is inserted into the path). -/

def codeBlockPlaceholder (n : Nat) : Chars :=
  strChars "__CODE_BLOCK_" ++ natChars n ++ strChars "__"

def inlineCodeProtMatch (st : List Chars) (l : Chars) :
    Option (Chars × Chars × Chars × List Chars) :=
  match singleBacktickMatch l with
  | some (consumed, rest) =>
    some (codeBlockPlaceholder st.length, consumed, rest, st ++ [consumed])
  | none => none

def fencedProtMatch (st : List Chars) (l : Chars) :
    Option (Chars × Chars × Chars × List Chars) :=
  if hasPrefixChars (strChars "```") l then
    let after := l.drop 3
    match findStop (stopLit (strChars "```")) after.length after with
    | some (body, rest) =>
      let consumed := strChars "```" ++ body ++ strChars "```"
      some (codeBlockPlaceholder st.length, consumed, rest, st ++ [consumed])
    | none => none
  else none

def restoreBlocks (blocks : List Chars) (t : Chars) : Chars :=
  (blocks.enum).foldl (fun c ib => replaceAll (codeBlockPlaceholder ib.1) ib.2 c) t

/-- Path conversion used by all three `md2tex.py` figure callbacks:
`FIGURES/`→`Figures/`, and `.svg`→`.png` when the path ends in `.svg`. -/
def figPathMd2tex (path : Chars) : Chars :=
  let p := replaceAll (strChars "FIGURES/") (strChars "Figures/") path
  if endsWithChars (strChars ".svg") p then
    replaceAll (strChars ".svg") (strChars ".png") p
  else p

def figPosition (attrs : PyDict) : Chars :=
  assocGetD attrs (strChars "tex_position") (strChars "ht")

def figWidth (attrs : PyDict) : Chars :=
  let w := assocGetD attrs (strChars "width") (strChars "\\linewidth")
  if ¬ startsWithChars (strChars "\\") w then w ++ strChars "\\linewidth" else w

def figEnv (position width latex_path caption : Chars) (label : Option Chars) : Chars :=
  strChars "\\begin\x7bfigure\x7d[" ++ position ++ strChars "]\n\\centering\n" ++
    strChars "\\includegraphics[width=" ++ width ++ strChars "]\x7b" ++ latex_path ++
    strChars "\x7d\n\\caption\x7b" ++ caption ++ ['\x7d'] ++
    (match label with
     | some i => strChars "\n\\label\x7b" ++ i ++ ['\x7d']
     | none => []) ++
    strChars "\n\\end\x7bfigure\x7d"

/-- `!\[\]\(([^)]+)\)\s*\n\{([^}]+)\}\s*(.+?)(?=\n\n|\n$|$)` (M|S) with
`process_new_figure_format_full`. -/
def newFigureMatch (l : Chars) : Option (Chars × Chars × Chars) :=
  if hasPrefixChars (strChars "![](") l then
    let a1 := l.drop 4
    let path := a1.takeWhile (· ≠ ')')
    if path ≠ [] ∧ (a1.drop path.length).head? = some ')' then
      let a2 := a1.drop (path.length + 1)
      let w1 := a2.takeWhile isPyWhitespace
      if w1 ≠ [] ∧ w1.getLast? = some '\n' ∧ (a2.drop w1.length).head? = some '\x7b' then
        let a3 := a2.drop (w1.length + 1)
        let attrs := a3.takeWhile (· ≠ '}')
        if attrs ≠ [] ∧ (a3.drop attrs.length).head? = some '\x7d' then
          let a4 := a3.drop (attrs.length + 1)
          let w2 := a4.takeWhile isPyWhitespace
          let t := a4.drop w2.length
          let capRest : Option (Chars × Chars × Chars) :=
            match t with
            | c0 :: t0 =>
              let body := c0 :: t0.takeWhile (· ≠ '\n')
              some (w2, body, t.drop body.length)
            | [] =>
              match w2.getLast? with
              | some wc => some (w2.dropLast, [wc], [])
              | none => none
          match capRest with
          | some (w2', body, rest) =>
            let attributes := parse_figure_attributes attrs
            let caption := italicClassSub (boldClassSub (pyStrip body))
            let consumed := strChars "![](" ++ path ++ [')'] ++ w1 ++ ['\x7b'] ++ attrs ++
              ['\x7d'] ++ w2' ++ body
            some (figEnv (figPosition attributes) (figWidth attributes)
                    (figPathMd2tex path) caption
                    ((assocGet attributes (strChars "id")).map id),
                  consumed, rest)
          | none => none
        else none
      else none
    else none
  else none

/-- `!\[([^\]]*)\]\(([^)]+)\)\{([^}]+)\}` with `process_figure_with_attributes`
(the caption is emitted verbatim, no markdown processing). -/
def figureWithAttrsMatch (l : Chars) : Option (Chars × Chars × Chars) :=
  if hasPrefixChars (strChars "![") l then
    let a1 := l.drop 2
    let cap := a1.takeWhile (· ≠ ']')
    if (a1.drop cap.length).head? = some ']' ∧
        (a1.drop (cap.length + 1)).head? = some '(' then
      let a2 := a1.drop (cap.length + 2)
      let path := a2.takeWhile (· ≠ ')')
      if path ≠ [] ∧ (a2.drop path.length).head? = some ')' ∧
          (a2.drop (path.length + 1)).head? = some '\x7b' then
        let a3 := a2.drop (path.length + 2)
        let attrs := a3.takeWhile (· ≠ '}')
        if attrs ≠ [] ∧ (a3.drop attrs.length).head? = some '\x7d' then
          let attributes := parse_figure_attributes attrs
          let consumed := strChars "![" ++ cap ++ strChars "](" ++ path ++ [')'] ++
            ['\x7b'] ++ attrs ++ ['\x7d']
          some (figEnv (figPosition attributes) (figWidth attributes)
                  (figPathMd2tex path) cap
                  ((assocGet attributes (strChars "id")).map id),
                consumed, a3.drop (attrs.length + 1))
        else none
      else none
    else none
  else none

/-- `!\[([^\]]*)\]\(([^)]+)\)` with `process_figure_without_attributes`. -/
def figureNoAttrsMatch (l : Chars) : Option (Chars × Chars × Chars) :=
  if hasPrefixChars (strChars "![") l then
    let a1 := l.drop 2
    let cap := a1.takeWhile (· ≠ ']')
    if (a1.drop cap.length).head? = some ']' ∧
        (a1.drop (cap.length + 1)).head? = some '(' then
      let a2 := a1.drop (cap.length + 2)
      let path := a2.takeWhile (· ≠ ')')
      if path ≠ [] ∧ (a2.drop path.length).head? = some ')' then
        let consumed := strChars "![" ++ cap ++ strChars "](" ++ path ++ [')']
        some (figEnv (strChars "ht") (strChars "\\linewidth") (figPathMd2tex path) cap none,
              consumed, a2.drop (path.length + 1))
      else none
    else none
  else none

def convert_figures_to_latex (text : Chars) (is_supplementary : Bool) : Chars :=
  let r1 := substSt inlineCodeProtMatch text.length [] text
  let r2 := substSt fencedProtMatch r1.1.length r1.2 r1.1
  let text := r2.1
  let protected_blocks := r2.2
  let text := subst newFigureMatch text.length text
  let text := subst figureWithAttrsMatch text.length text
  let text := subst figureNoAttrsMatch text.length text
  let text := restoreBlocks protected_blocks text
  if is_supplementary then
    replaceAll (strChars "\\end\x7bfigure\x7d")
      (strChars "\\end\x7bfigure\x7d\n\\newpage") text
  else text

/-! ### Figure references and headers -/

def figRefMatch (tag cmdPre : Chars) (l : Chars) : Option (Chars × Chars × Chars) :=
  if hasPrefixChars ('@' :: tag) l then
    let run := (l.drop (1 + tag.length)).takeWhile isCiteKeyChar
    if run ≠ [] then
      some (cmdPre ++ run ++ ['\x7d'], '@' :: tag ++ run, l.drop (1 + tag.length + run.length))
    else none
  else none

def convert_figure_references_to_latex (text : Chars) : Chars :=
  let text := subst (figRefMatch (strChars "fig:") (strChars "\\ref\x7bfig:")) text.length text
  subst (figRefMatch (strChars "sfig:") (strChars "\\ref\x7bsfig:")) text.length text

def headerLineSub (line : Chars) : Chars :=
  if startsWithChars (strChars "# ") line ∧ line.drop 2 ≠ [] then
    strChars "\\section\x7b" ++ line.drop 2 ++ ['\x7d']
  else if startsWithChars (strChars "## ") line ∧ line.drop 3 ≠ [] then
    strChars "\\subsection\x7b" ++ line.drop 3 ++ ['\x7d']
  else if startsWithChars (strChars "### ") line ∧ line.drop 4 ≠ [] then
    strChars "\\subsubsection\x7b" ++ line.drop 4 ++ ['\x7d']
  else if startsWithChars (strChars "#### ") line ∧ line.drop 5 ≠ [] then
    strChars "\\paragraph\x7b" ++ line.drop 5 ++ ['\x7d']
  else line

def headersSub (text : Chars) : Chars :=
  joinLines ((splitLines text).map headerLineSub)

/-! ### Citations -/

def process_multiple_citations (citations_text : Chars) : Chars :=
  let citations := ((pySplit [';'] citations_text).map
    (fun cite => lstripChar '@' (pyStrip cite))).filter (· ≠ [])
  strChars "\\cite\x7b" ++ joinWith [','] citations ++ ['\x7d']

/-- `\[(@[^]]+)\]` with `process_multiple_citations`. -/
def bracketedCiteMatch (l : Chars) : Option (Chars × Chars × Chars) :=
  match l with
  | '[' :: rest =>
    let inner := rest.takeWhile (· ≠ ']')
    if 2 ≤ inner.length ∧ inner.head? = some '@' ∧
        (rest.drop inner.length).head? = some ']' then
      some (process_multiple_citations inner, '[' :: inner ++ [']'],
            rest.drop (inner.length + 1))
    else none
  | _ => none

/-- `@(?!fig:)([a-zA-Z0-9_-]+)` → `\cite{\1}`. -/
def singleCiteMatch (l : Chars) : Option (Chars × Chars × Chars) :=
  match l with
  | '@' :: rest =>
    if hasPrefixChars (strChars "fig:") rest then none
    else
      let run := rest.takeWhile isCiteKeyChar
      if run ≠ [] then
        some (strChars "\\cite\x7b" ++ run ++ ['\x7d'], '@' :: run, rest.drop run.length)
      else none
  | _ => none

def process_citations_in_text (text : Chars) : Chars :=
  let text := subst bracketedCiteMatch text.length text
  subst singleCiteMatch text.length text

def interleavePh (ph : Chars) : List Chars → List Chars
  | [] => []
  | [x] => [x]
  | x :: y :: xs => x :: ph :: interleavePh ph (y :: xs)

def process_citations_outside_tables (protected_markdown_tables : PyDict)
    (content : Chars) : Chars :=
  let table_placeholders := protected_markdown_tables.map (·.1)
  if table_placeholders = [] then process_citations_in_text content
  else
    let parts := table_placeholders.foldl
      (fun parts ph => parts.flatMap fun part =>
        if containsSub ph part then interleavePh ph (pySplit ph part) else [part])
      [content]
    (parts.map fun part =>
      if part ∈ table_placeholders then part else process_citations_in_text part).flatten

/-! ### Code spans, bold/italic, links -/

/-- `process_code_blocks`: backtick spans to `\texttt{}` with the underscore
sentinel. -/
def codeSpanRep (body : Chars) : Chars :=
  strChars "\\texttt\x7b" ++ replaceAll ['_'] (strChars "XUNDERSCOREX") body ++ ['\x7d']

def doubleTickSpanMatch (l : Chars) : Option (Chars × Chars × Chars) :=
  match doubleBacktickMatch l with
  | some (consumed, rest) =>
    some (codeSpanRep ((consumed.drop 2).dropLast.dropLast), consumed, rest)
  | none => none

def singleTickSpanMatch (l : Chars) : Option (Chars × Chars × Chars) :=
  match singleBacktickMatch l with
  | some (consumed, rest) =>
    some (codeSpanRep ((consumed.drop 1).dropLast), consumed, rest)
  | none => none

/-- Matcher for the split pattern `(\\[a-zA-Z]+\{[^}]*\})`. -/
def latexCmdMatch (l : Chars) : Option (Chars × Chars) :=
  match l with
  | '\\' :: rest =>
    let letters := rest.takeWhile Char.isAlpha
    if letters ≠ [] ∧ (rest.drop letters.length).head? = some '\x7b' then
      let after := rest.drop (letters.length + 1)
      let body := after.takeWhile (· ≠ '}')
      if (after.drop body.length).head? = some '}' then
        some ('\\' :: letters ++ ['\x7b'] ++ body ++ ['\x7d'],
              after.drop (body.length + 1))
      else none
    else none
  | _ => none

/-- The bold/italic pass: split on LaTeX commands, process only the even parts. -/
def applyBoldItalic (content : Chars) : Chars :=
  ((splitCap latexCmdMatch content).enum.map fun ip =>
    if ip.1 % 2 = 0 then italicLazySub (boldLazySub ip.2) else ip.2).flatten

def escape_url_for_latex (url : Chars) : Chars :=
  let url := replaceAll (strChars "#") (strChars "\\#") url
  replaceAll (strChars "%") (strChars "\\%") url

/-- `\[([^\]]+)\]\(([^)]+)\)` with `process_link`. -/
def linkMatch (l : Chars) : Option (Chars × Chars × Chars) :=
  match l with
  | '[' :: a1 =>
    let text := a1.takeWhile (· ≠ ']')
    if text ≠ [] ∧ (a1.drop text.length).head? = some ']' ∧
        (a1.drop (text.length + 1)).head? = some '(' then
      let a2 := a1.drop (text.length + 2)
      let url := a2.takeWhile (· ≠ ')')
      if url ≠ [] ∧ (a2.drop url.length).head? = some ')' then
        let e := escape_url_for_latex url
        let rep :=
          if pyStrip text = pyStrip url then strChars "\\url\x7b" ++ e ++ ['\x7d']
          else strChars "\\href\x7b" ++ e ++ strChars "\x7d\x7b" ++ text ++ ['\x7d']
        some (rep, '[' :: text ++ strChars "](" ++ url ++ [')'],
              a2.drop (url.length + 1))
      else none
    else none
  | _ => none

def protCmdPlaceholder (n : Nat) : Chars :=
  strChars "__PROTECTED_LATEX_CMD_" ++ natChars n ++ strChars "__"

/-- `\\url\{[^}]+\}`. -/
def urlCmdMatch (st : List Chars) (l : Chars) :
    Option (Chars × Chars × Chars × List Chars) :=
  let opener := strChars "\\url\x7b"
  if hasPrefixChars opener l then
    let after := l.drop opener.length
    let body := after.takeWhile (· ≠ '}')
    if body ≠ [] ∧ (after.drop body.length).head? = some '}' then
      let consumed := opener ++ body ++ ['\x7d']
      some (protCmdPlaceholder st.length, consumed, after.drop (body.length + 1),
            st ++ [consumed])
    else none
  else none

/-- `\\href\{[^}]+\}\{[^}]+\}`. -/
def hrefCmdMatch (st : List Chars) (l : Chars) :
    Option (Chars × Chars × Chars × List Chars) :=
  let opener := strChars "\\href\x7b"
  if hasPrefixChars opener l then
    let after := l.drop opener.length
    let b1 := after.takeWhile (· ≠ '}')
    if b1 ≠ [] ∧ (after.drop b1.length).head? = some '}' ∧
        (after.drop (b1.length + 1)).head? = some '\x7b' then
      let after2 := after.drop (b1.length + 2)
      let b2 := after2.takeWhile (· ≠ '}')
      if b2 ≠ [] ∧ (after2.drop b2.length).head? = some '}' then
        let consumed := opener ++ b1 ++ strChars "\x7d\x7b" ++ b2 ++ ['\x7d']
        some (protCmdPlaceholder st.length, consumed, after2.drop (b2.length + 1),
              st ++ [consumed])
      else none
    else none
  else none

/-- `https?://[^\s\}>\]]+` with `process_bare_url`. -/
def bareUrlMatch (l : Chars) : Option (Chars × Chars × Chars) :=
  if hasPrefixChars (strChars "http") l then
    let afterHttp := l.drop 4
    let a1 := if afterHttp.head? = some 's' then afterHttp.drop 1 else afterHttp
    let scheme := l.take (l.length - a1.length)
    if hasPrefixChars (strChars "://") a1 then
      let body := (a1.drop 3).takeWhile fun c =>
        ¬ (isPyWhitespace c ∨ c = '\x7d' ∨ c = '>' ∨ c = ']')
      if body ≠ [] then
        let url := scheme ++ strChars "://" ++ body
        some (strChars "\\url\x7b" ++ escape_url_for_latex url ++ ['\x7d'], url,
              (a1.drop 3).drop body.length)
      else none
    else none
  else none

def restoreProtCmds (cmds : List Chars) (t : Chars) : Chars :=
  (cmds.enum).foldl (fun c ib => replaceAll (protCmdPlaceholder ib.1) ib.2 c) t

def convert_links_to_latex (text : Chars) : Chars :=
  let text := subst linkMatch text.length text
  let r1 := substSt urlCmdMatch text.length [] text
  let r2 := substSt hrefCmdMatch r1.1.length r1.2 r1.1
  let text := subst bareUrlMatch r2.1.length r2.1
  restoreProtCmds r2.2 text

end md2tex

namespace md2tex

/-! ### LaTeX-table protection and the full pipeline -/

def latexTablePlaceholder (n : Nat) : Chars :=
  strChars "XXPROTECTEDTABLEXX" ++ natChars n ++ strChars "XXPROTECTEDTABLEXX"

/-- Lazy terminator `\\end\{env\*?\}`. -/
def stopEnvEnd (env : Chars) (l : Chars) : Option (Chars × Chars) :=
  let e1 := strChars "\\end\x7b" ++ env ++ ['\x7d']
  let e2 := strChars "\\end\x7b" ++ env ++ strChars "*\x7d"
  if hasPrefixChars e1 l then some (e1, l.drop e1.length)
  else if hasPrefixChars e2 l then some (e2, l.drop e2.length)
  else none

/-- `\\begin\{env\*?\}.*?\\end\{env\*?\}` (DOTALL) protected wholesale. -/
def protectLatexTableMatch (env : Chars) (st : PyDict) (l : Chars) :
    Option (Chars × Chars × Chars × PyDict) :=
  let b1 := strChars "\\begin\x7b" ++ env ++ ['\x7d']
  let b2 := strChars "\\begin\x7b" ++ env ++ strChars "*\x7d"
  let opener : Option Chars :=
    if hasPrefixChars b1 l then some b1
    else if hasPrefixChars b2 l then some b2
    else none
  match opener with
  | some op =>
    let after := l.drop op.length
    match findStop (stopEnvEnd env) after.length after with
    | some (body, rest) =>
      let consumed := l.take (l.length - rest.length)
      let _ := body
      let ph := latexTablePlaceholder st.length
      some (ph, consumed, rest, st ++ [(ph, consumed)])
    | none => none
  | none => none

/-- `extract_content_sections`' per-section conversion pipeline
(`convert_markdown_to_latex` in `md2tex.py`). -/
def convert_markdown_to_latex (content0 : Chars) (is_supplementary : Bool) : Chars :=
  -- FIRST: Convert fenced code blocks BEFORE protecting backticks
  let content := convert_code_blocks_to_latex content0
  -- Protect verbatim and minted environments
  let r1 := substSt protectVerbatimMatch content.length [] content
  let r2 := substSt protectMintedMatch r1.1.length r1.2 r1.1
  let content := r2.1
  let protected_verbatim_content := r2.2
  -- Protect markdown tables from citation processing
  let r3 := substStLS protectMdTableMatch content.length true [] content
  let content := r3.1
  let protected_markdown_tables := r3.2
  -- Protect backtick content (double then single)
  let r4 := substSt protectBacktickMatchD content.length [] content
  let r5 := substSt protectBacktickMatchS r4.1.length r4.2 r4.1
  let content := r5.1
  let protected_backtick_content := r5.2
  let content := convert_html_comments_to_latex content
  let content := convert_html_tags_to_latex content
  let content := convert_lists_to_latex content
  -- Restore protected markdown tables before table processing
  let content := restoreMap protected_markdown_tables content
  -- Restore backticks in table rows only
  let table_lines := (splitLines content).map fun line =>
    if containsSub ['|'] line ∧ hasPrefixChars ['|'] (pyStrip line) ∧
        hasPrefixChars ['|'] (pyStrip line).reverse then
      restoreMap protected_backtick_content line
    else line
  let temp_content := joinLines table_lines
  let table_processed := convert_tables_to_latex temp_content protected_backtick_content
    is_supplementary
  -- Protect LaTeX table environments (table, sidewaystable, stable)
  let p1 := substSt (protectLatexTableMatch (strChars "table")) table_processed.length []
    table_processed
  let p2 := substSt (protectLatexTableMatch (strChars "sidewaystable")) p1.1.length p1.2 p1.1
  let p3 := substSt (protectLatexTableMatch (strChars "stable")) p2.1.length p2.2 p2.1
  let protected_tables := p3.2
  -- Re-protect any backtick content that was not consumed inside tables
  let table_processed := protected_backtick_content.foldl
    (fun c kv => if containsSub kv.2 c then replaceAll kv.2 kv.1 c else c) p3.1
  let content := table_processed
  let content := convert_figures_to_latex content is_supplementary
  let content := convert_figure_references_to_latex content
  let content := headersSub content
  let content := process_citations_outside_tables protected_markdown_tables content
  -- Restore protected backtick content, then convert code spans
  let content := restoreMap protected_backtick_content content
  let content := subst doubleTickSpanMatch content.length content
  let content := subst singleTickSpanMatch content.length content
  let content := applyBoldItalic content
  let content := convert_links_to_latex content
  -- Special-character escaping (the inline copy of escape_special_characters)
  let content := escape_special_characters content
  let content := restoreMap protected_tables content
  restoreMap protected_verbatim_content content

/-! ### `map_section_title_to_key` and `extract_content_sections` -/

def map_section_title_to_key (title : Chars) : Chars :=
  let t := pyLower title
  if containsSub (strChars "abstract") t then strChars "abstract"
  else if containsSub (strChars "introduction") t then strChars "main"
  else if containsSub (strChars "method") t then strChars "methods"
  else if containsSub (strChars "result") t ∧ containsSub (strChars "discussion") t then
    strChars "results_and_discussion"
  else if containsSub (strChars "result") t then strChars "results"
  else if containsSub (strChars "discussion") t then strChars "discussion"
  else if containsSub (strChars "conclusion") t then strChars "conclusion"
  else if containsSub (strChars "data availability") t ∨
      containsSub (strChars "data access") t then strChars "data_availability"
  else if containsSub (strChars "code availability") t ∨
      containsSub (strChars "code access") t then strChars "code_availability"
  else if containsSub (strChars "author contribution") t ∨
      containsSub (strChars "contribution") t then strChars "author_contributions"
  else if containsSub (strChars "acknowledgement") t ∨
      containsSub (strChars "acknowledge") t then strChars "acknowledgements"
  else if containsSub (strChars "funding") t ∨
      containsSub (strChars "financial support") t ∨
      containsSub (strChars "grant") t then strChars "funding"
  else replaceAll ['-'] ['_'] (replaceAll [' '] ['_'] t)

/-- `re.sub(r"^---\n.*?\n---\n", "", content, flags=re.DOTALL)`: the pattern is
anchored at the string start (no MULTILINE), so at most the leading front
matter is stripped. -/
def stripFrontMatter (content : Chars) : Chars :=
  if hasPrefixChars (strChars "---\n") content then
    let after := content.drop 4
    match findStop (stopLit (strChars "\n---\n")) after.length after with
    | some (body, rest) =>
      let _ := body
      rest
    | none => content
  else content

/-- A `^## (.+?)$` header line (MULTILINE): the lazy group still spans the whole
rest of the line, since `$` only matches at the line end. -/
def isSectionHeader (line : Chars) : Bool :=
  startsWithChars (strChars "## ") line && line.drop 3 ≠ []

def sectionTitleOf (line : Chars) : Chars := line.drop 3

/-- Regroup the line list into the pre-header content and
`(title, section-lines)` blocks, mirroring the `re.finditer` index
arithmetic (the text between a match end and the next match start is the
joined lines in between, which `strip()` then trims). -/
def splitSectionsGo : Nat → List Chars → List Chars × List (Chars × List Chars)
  | 0, ls => (ls, [])
  | _ + 1, [] => ([], [])
  | f + 1, line :: rest =>
    if isSectionHeader line then
      let r := collectSection f rest
      ([], (sectionTitleOf line, r.1) :: r.2)
    else
      let r := splitSectionsGo f rest
      (line :: r.1, r.2)
where
  collectSection : Nat → List Chars → List Chars × List (Chars × List Chars)
    | 0, ls => (ls, [])
    | _ + 1, [] => ([], [])
    | f + 1, line :: rest =>
      if isSectionHeader line then
        let r := collectSection f rest
        ([], (sectionTitleOf line, r.1) :: r.2)
      else
        let r := collectSection f rest
        (line :: r.1, r.2)

def containsSupplementary (l : Chars) : Bool :=
  containsSub (strChars "supplementary") (pyLower l)

/-- The content-processing part of `extract_content_sections` (after the input
has been identified as manuscript content rather than a file path). -/
def extract_sections_from_content (content0 : Chars) : List (Chars × Chars) :=
  let content := stripFrontMatter content0
  let lines := splitLines content
  let split := splitSectionsGo lines.length lines
  let sectionBlocks := split.2
  if sectionBlocks = [] then
    let is_supplementary := containsSupplementary content
    [(strChars "main", convert_markdown_to_latex content is_supplementary)]
  else
    let main_content := pyStrip (joinLines split.1)
    let init : List (Chars × Chars) :=
      if main_content ≠ [] then
        [(strChars "main",
          convert_markdown_to_latex main_content (containsSupplementary main_content))]
      else []
    sectionBlocks.foldl
      (fun sections blk =>
        let section_title := pyStrip blk.1
        let section_content := pyStrip (joinLines blk.2)
        let is_supplementary :=
          containsSupplementary section_title || containsSupplementary section_content
        let latex := convert_markdown_to_latex section_content is_supplementary
        let key := map_section_title_to_key section_title
        if key ≠ [] then assocSet sections key latex else sections)
      init

/-- `extract_content_sections`, with the file system shallowly embedded as a
lookup function: a string that does not start with `#` or `---` and contains no
newline is treated as a path and opened; a missing file raises
`FileNotFoundError`. -/
def extract_content_sections (fs : Chars → Option Chars) (article_md : Chars) :
    Except Chars (List (Chars × Chars)) :=
  if startsWithChars (strChars "#") article_md ∨
      startsWithChars (strChars "---") article_md ∨
      containsSub (strChars "\n") article_md then
    Except.ok (extract_sections_from_content article_md)
  else
    match fs article_md with
    | some fileContent => Except.ok (extract_sections_from_content fileContent)
    | none => Except.error (strChars "FileNotFoundError")

end md2tex

/-! ## `table_processor.py` — the module-split copy of the table converter.
It differs from the `md2tex.py` copy in two places: `_escape_latex_special_chars`
is used for every code-span escape (including brackets and `@`), and
`generate_latex_table` wraps the tabular in `\rotatebox{...}{...}` when a
rotation is requested on a non-sideways table. -/

namespace table_processor

def escape_latex_special_chars (l : Chars) : Chars :=
  let l := replaceAll (strChars "\\") (strChars "\\textbackslash\x7b\x7d") l
  let l := replaceAll (strChars "\x7b") (strChars "\\\x7b") l
  let l := replaceAll (strChars "\x7d") (strChars "\\\x7d") l
  let l := replaceAll (strChars "&") (strChars "\\&") l
  let l := replaceAll (strChars "%") (strChars "\\%") l
  let l := replaceAll (strChars "$") (strChars "\\$") l
  let l := replaceAll (strChars "#") (strChars "\\#") l
  let l := replaceAll (strChars "^") (strChars "\\textasciicircum\x7b\x7d") l
  let l := replaceAll (strChars "~") (strChars "\\textasciitilde\x7b\x7d") l
  let l := replaceAll (strChars "_") (strChars "\\_") l
  let l := replaceAll (strChars "[") (strChars "\\lbrack\x7b\x7d") l
  let l := replaceAll (strChars "]") (strChars "\\rbrack\x7b\x7d") l
  replaceAll (strChars "@") (strChars "\\@") l

def format_markdown_syntax_cell (cell : Chars) : Chars :=
  let cell := subst (fun l =>
    match md2tex.singleBacktickMatch l with
    | some (consumed, rest) =>
      let body := (consumed.drop 1).dropLast
      some (strChars "\\texttt\x7b" ++ escape_latex_special_chars body ++ ['\x7d'],
            consumed, rest)
    | none => none) cell.length cell
  if ¬ containsSub (strChars "\\texttt\x7b") cell then
    strChars "\\texttt\x7b" ++ escape_latex_special_chars cell ++ ['\x7d']
  else cell

def processCodeInTable (body : Chars) : Chars :=
  let l := escape_latex_special_chars body
  let l := replaceAll (strChars "\n") (strChars " ") l
  pyStrip (wsCollapseSub l)

def doubleTickCellMatch (l : Chars) : Option (Chars × Chars × Chars) :=
  match md2tex.doubleBacktickMatch l with
  | some (consumed, rest) =>
    let body := (consumed.drop 2).dropLast.dropLast
    some (strChars "\\texttt\x7b" ++ processCodeInTable body ++ ['\x7d'], consumed, rest)
  | none => none

def singleTickCellMatch (l : Chars) : Option (Chars × Chars × Chars) :=
  match md2tex.singleBacktickMatch l with
  | some (consumed, rest) =>
    let body := (consumed.drop 1).dropLast
    some (strChars "\\texttt\x7b" ++ processCodeInTable body ++ ['\x7d'], consumed, rest)
  | none => none

def format_regular_table_cell (cell : Chars) : Chars :=
  let cell := subst md2tex.nestedTickMatch cell.length cell
  let cell := subst doubleTickCellMatch cell.length cell
  let cell := subst singleTickCellMatch cell.length cell
  let cell := md2tex.boldOutsideTexttt cell
  let cell := md2tex.italicOutsideTexttt cell
  escapeOutsideTexttt cell

def format_table_cell (cell : Chars) (is_markdown_example_column is_header : Bool)
    (protected_backtick_content : PyDict) : Chars :=
  let cell := restoreMap protected_backtick_content cell
  if is_markdown_example_column ∧ is_header then
    italicClassSub (boldLazySub cell)
  else if is_markdown_example_column then
    format_markdown_syntax_cell cell
  else
    format_regular_table_cell cell

def determine_table_environment (width : Chars) (rotation_angle : Option Nat)
    (is_supplementary : Bool) : Chars × Chars :=
  if optNatTruthy rotation_angle ∧ is_supplementary then
    (if width = strChars "double" then strChars "sidewaystable*" else strChars "sidewaystable",
     strChars "[ht]")
  else if is_supplementary then
    (if width = strChars "double" then strChars "stable*" else strChars "stable",
     strChars "[ht]")
  else
    (if width = strChars "double" then strChars "table*" else strChars "table",
     if width = strChars "double" then strChars "[!ht]" else strChars "[ht]")

/-- The `latex_lines` list built by `generate_latex_table` (joined with
newlines by the wrapper below). -/
def generateLatexTableLines (headers : List Chars) (data_rows : List (List Chars))
    (caption : Option Chars) (width : Chars) (table_id : Option Chars)
    (protected_backtick_content : PyDict) (rotation_angle : Option Nat)
    (is_supplementary : Bool) : List Chars :=
  let num_cols := headers.length
  let col_spec := '|' :: (List.replicate num_cols (strChars "l|")).flatten
  let first_header_clean :=
    match headers with
    | h :: _ => italicStripSub (boldStripSub (pyStrip (pyLower h)))
    | [] => []
  let is_markdown_syntax_table := first_header_clean = strChars "markdown element"
  let formatted_headers := headers.map
    (format_table_cell · is_markdown_syntax_table true protected_backtick_content)
  let formatted_data_rows := data_rows.map (List.map
    (format_table_cell · is_markdown_syntax_table false protected_backtick_content))
  let envPos := determine_table_environment width rotation_angle is_supplementary
  let table_env := envPos.1
  let position := envPos.2
  let use_rotatebox := optNatTruthy rotation_angle ∧
    ¬ startsWithChars (strChars "sideways") table_env
  [strChars "\\begin\x7b" ++ table_env ++ ['\x7d'] ++ position,
   strChars "\\centering"] ++
  (if use_rotatebox then
    [strChars "\\rotatebox\x7b" ++ natChars ((rotation_angle).getD 0) ++ strChars "\x7d\x7b%"]
   else []) ++
  [strChars "\\begin\x7btabular\x7d\x7b" ++ col_spec ++ ['\x7d'],
   strChars "\\hline",
   joinWith (strChars " & ") formatted_headers ++ strChars " \\\\",
   strChars "\\hline"] ++
  (formatted_data_rows.map fun row =>
    [joinWith (strChars " & ") row ++ strChars " \\\\", strChars "\\hline"]).flatten ++
  [strChars "\\end\x7btabular\x7d"] ++
  (if use_rotatebox then [strChars "\x7d%"] else []) ++
  (if optStrTruthy caption then
    [strChars "\\raggedright",
     strChars "\\caption\x7b" ++ (caption.getD []) ++ ['\x7d'],
     strChars "\\label\x7b" ++
       (match table_id with
        | some t => if t ≠ [] then t else strChars "tab:comparison"
        | none => strChars "tab:comparison") ++ ['\x7d']]
   else []) ++
  [strChars "\\end\x7b" ++ table_env ++ ['\x7d']]

def generate_latex_table (headers : List Chars) (data_rows : List (List Chars))
    (caption : Option Chars) (width : Chars) (table_id : Option Chars)
    (protected_backtick_content : PyDict) (rotation_angle : Option Nat)
    (is_supplementary : Bool) : Chars :=
  joinLines (generateLatexTableLines headers data_rows caption width table_id
    protected_backtick_content rotation_angle is_supplementary)

/-- `convert_tables_to_latex` — identical scan to the `md2tex.py` copy but
rendering through this module's `generate_latex_table`. -/
def tablesGo (pbc : PyDict) (isSupp : Bool) :
    Nat → Option Chars → List Chars → List Chars → List Chars
  | 0, _, accRev, rem => accRev.reverse ++ rem
  | _ + 1, _, accRev, [] => accRev.reverse
  | f + 1, prev, accRev, line :: rest =>
    let legacy := match prev with
      | some pl => md2tex.legacyCaptionParse pl
      | none => none
    if md2tex.isTableStart line rest then
      match rest with
      | sepLine :: rest2 =>
        let headerLine := pyStrip line
        let headers := (md2tex.sliceMid (pySplit ['|'] headerLine)).map pyStrip
        let numCols := headers.length
        let cr := md2tex.collectRows numCols rest2.length rest2
        let dataRows := cr.1
        let rest3 := cr.2.1
        let lastRow := cr.2.2
        let table_caption : Option Chars := legacy.map (·.1)
        let widthv := match legacy with
          | some p => p.2
          | none => strChars "single"
        let popCond := optStrTruthy table_caption ∧ accRev ≠ [] ∧
          startsWithChars (strChars "table") (pyLower (pyStrip (accRev.headD [])))
        let accRev1 := if popCond then accRev.tail else accRev
        let newfmt := md2tex.parse_table_caption rest3
        let afterCap : List Chars × Option Chars :=
          match newfmt, rest3 with
          | some _, _ :: l1 :: r2 => (r2, some l1)
          | _, _ =>
            (rest3, match lastRow with
              | some x => some x
              | none => some sepLine)
        let captionArg : Option Chars :=
          match newfmt with
          | some t => some t.1
          | none => table_caption
        let tid : Option Chars := newfmt.map (·.2.1)
        let rot : Option Nat :=
          match newfmt with
          | some t => t.2.2
          | none => none
        let latexTable := generate_latex_table headers dataRows captionArg widthv tid pbc
          rot isSupp
        let emitted := pySplit ['\n'] latexTable ++
          (if isSupp then [strChars "\\newpage"] else [])
        tablesGo pbc isSupp f afterCap.2 (emitted.reverse ++ accRev1) afterCap.1
      | [] => line :: accRev.reverse
    else
      tablesGo pbc isSupp f (some line) (line :: accRev) rest

def convert_tables_to_latex (text : Chars) (protected_backtick_content : PyDict)
    (is_supplementary : Bool) : Chars :=
  let lines := splitLines text
  joinLines (tablesGo protected_backtick_content is_supplementary (lines.length + 1)
    none [] lines)

end table_processor

/-! ## `figure_processor.py` -/

namespace figure_processor

/-- POSIX `os.path.basename`. -/
def pyBasename (p : Chars) : Chars :=
  match rfindChar p '/' with
  | some i => p.drop (i + 1)
  | none => p

/-- POSIX `os.path.splitext` (CPython `genericpath._splitext`): split at the
last dot after the last separator, unless the basename up to that dot is all
dots. -/
def pySplitext (p : Chars) : Chars × Chars :=
  let sepIdx := rfindChar p '/'
  let dotIdx := rfindChar p '.'
  match dotIdx with
  | none => (p, [])
  | some d =>
    let start := match sepIdx with
      | some s => s + 1
      | none => 0
    -- `dotIndex > sepIndex` and some non-dot character strictly before the dot
    -- in the basename (CPython's `while filenameIndex < dotIndex` scan)
    if start ≤ d ∧ ((p.drop start).take (d - start)).any (· ≠ '.') then
      (p.take d, p.drop d)
    else (p, [])

/-- Per-figure subdirectory insertion: when `latex_path.split("Figures/")[-1]`
has no `/`, rewrite to `Figures/<name>/<name><ext>` using
`os.path.basename`/`os.path.splitext`. -/
def subdirInsert (latex_path : Chars) : Chars :=
  if ¬ containsSub ['/'] ((pySplit (strChars "Figures/") latex_path).getLastD []) then
    let figure_name := (pySplitext (pyBasename latex_path)).1
    let figure_ext := (pySplitext latex_path).2
    strChars "Figures/" ++ figure_name ++ ['/'] ++ figure_name ++ figure_ext
  else latex_path

/-- `.svg` → `.png` rewriting, applied when the path ends in `.svg`. -/
def svgToPng (latex_path : Chars) : Chars :=
  if endsWithChars (strChars ".svg") latex_path then
    replaceAll (strChars ".svg") (strChars ".png") latex_path
  else latex_path

/-- The path normalisation inside `create_latex_figure_environment`:
`FIGURES/`→`Figures/`, per-figure subdirectory insertion when the part after
`Figures/` has no `/`, then `.svg`→`.png` when the path ends in `.svg`. -/
def figureLatexPath (path : Chars) : Chars :=
  svgToPng (subdirInsert (replaceAll (strChars "FIGURES/") (strChars "Figures/") path))

def create_latex_figure_environment (path caption : Chars) (attributes : PyDict) : Chars :=
  let latex_path := figureLatexPath path
  let position := md2tex.figPosition attributes
  let width := md2tex.figWidth attributes
  let processed_caption := italicClassSub (boldClassSub caption)
  md2tex.figEnv position width latex_path processed_caption
    ((assocGet attributes (strChars "id")).map id)

/-- `_process_new_figure_format` (same pattern as the `md2tex.py` copy, but
rendering through `create_latex_figure_environment`). -/
def newFigureMatch (l : Chars) : Option (Chars × Chars × Chars) :=
  if hasPrefixChars (strChars "![](") l then
    let a1 := l.drop 4
    let path := a1.takeWhile (· ≠ ')')
    if path ≠ [] ∧ (a1.drop path.length).head? = some ')' then
      let a2 := a1.drop (path.length + 1)
      let w1 := a2.takeWhile isPyWhitespace
      if w1 ≠ [] ∧ w1.getLast? = some '\n' ∧ (a2.drop w1.length).head? = some '\x7b' then
        let a3 := a2.drop (w1.length + 1)
        let attrs := a3.takeWhile (· ≠ '}')
        if attrs ≠ [] ∧ (a3.drop attrs.length).head? = some '\x7d' then
          let a4 := a3.drop (attrs.length + 1)
          let w2 := a4.takeWhile isPyWhitespace
          let t := a4.drop w2.length
          let capRest : Option (Chars × Chars × Chars) :=
            match t with
            | c0 :: t0 =>
              let body := c0 :: t0.takeWhile (· ≠ '\n')
              some (w2, body, t.drop body.length)
            | [] =>
              match w2.getLast? with
              | some wc => some (w2.dropLast, [wc], [])
              | none => none
          match capRest with
          | some (w2', body, rest) =>
            let attributes := parse_figure_attributes attrs
            let consumed := strChars "![](" ++ path ++ [')'] ++ w1 ++ ['\x7b'] ++ attrs ++
              ['\x7d'] ++ w2' ++ body
            some (create_latex_figure_environment path (pyStrip body) attributes,
                  consumed, rest)
          | none => none
        else none
      else none
    else none
  else none

/-- `_process_figure_with_attributes`. -/
def figureWithAttrsMatch (l : Chars) : Option (Chars × Chars × Chars) :=
  if hasPrefixChars (strChars "![") l then
    let a1 := l.drop 2
    let cap := a1.takeWhile (· ≠ ']')
    if (a1.drop cap.length).head? = some ']' ∧
        (a1.drop (cap.length + 1)).head? = some '(' then
      let a2 := a1.drop (cap.length + 2)
      let path := a2.takeWhile (· ≠ ')')
      if path ≠ [] ∧ (a2.drop path.length).head? = some ')' ∧
          (a2.drop (path.length + 1)).head? = some '\x7b' then
        let a3 := a2.drop (path.length + 2)
        let attrs := a3.takeWhile (· ≠ '}')
        if attrs ≠ [] ∧ (a3.drop attrs.length).head? = some '\x7d' then
          let attributes := parse_figure_attributes attrs
          let consumed := strChars "![" ++ cap ++ strChars "](" ++ path ++ [')'] ++
            ['\x7b'] ++ attrs ++ ['\x7d']
          some (create_latex_figure_environment path cap attributes,
                consumed, a3.drop (attrs.length + 1))
        else none
      else none
    else none
  else none

/-- `_process_figure_without_attributes`. -/
def figureNoAttrsMatch (l : Chars) : Option (Chars × Chars × Chars) :=
  if hasPrefixChars (strChars "![") l then
    let a1 := l.drop 2
    let cap := a1.takeWhile (· ≠ ']')
    if (a1.drop cap.length).head? = some ']' ∧
        (a1.drop (cap.length + 1)).head? = some '(' then
      let a2 := a1.drop (cap.length + 2)
      let path := a2.takeWhile (· ≠ ')')
      if path ≠ [] ∧ (a2.drop path.length).head? = some ')' then
        let consumed := strChars "![" ++ cap ++ strChars "](" ++ path ++ [')']
        some (create_latex_figure_environment path cap [],
              consumed, a2.drop (path.length + 1))
      else none
    else none
  else none

def convert_figures_to_latex (text : Chars) : Chars :=
  let r1 := substSt md2tex.inlineCodeProtMatch text.length [] text
  let r2 := substSt md2tex.fencedProtMatch r1.1.length r1.2 r1.1
  let text := r2.1
  let protected_blocks := r2.2
  let text := subst newFigureMatch text.length text
  let text := subst figureWithAttrsMatch text.length text
  let text := subst figureNoAttrsMatch text.length text
  md2tex.restoreBlocks protected_blocks text

end figure_processor

/-! ## `supplementary_note_processor.py` -/

namespace supplementary_note_processor

/-- `re.split(pattern, content, maxsplit=1)` with a literal pattern. -/
def splitOnceGo (pat : Chars) : Nat → Chars → Chars → Option (Chars × Chars)
  | 0, _, _ => none
  | _ + 1, _, [] => none
  | f + 1, accRev, c :: cs =>
    if hasPrefixChars pat (c :: cs) then some (accRev.reverse, (c :: cs).drop pat.length)
    else splitOnceGo pat f (c :: accRev) cs

def splitOnce (pat l : Chars) : Option (Chars × Chars) := splitOnceGo pat l.length [] l

def excluded_headers : List Chars :=
  [strChars "file structure and organisation",
   strChars "file structure and organization"]

/-- The label slug: `re.sub(r"[^\w\s-]", "", title.lower())`, then
`re.sub(r"[-\s]+", "_", …)`, then `.strip("_")`. -/
def noteLabelSlug (title : Chars) : Chars :=
  let l := (pyLower title).filter fun c => isWordChar c || isPyWhitespace c || c = '-'
  let collapsed := subst (fun s =>
    let run := s.takeWhile fun c => c = '-' || isPyWhitespace c
    if run ≠ [] then some (['_'], run, s.drop run.length) else none) l.length l
  stripCharBoth '_' collapsed

/-- `replace_note_header` applied to the `^### (.+)$` lines of the notes
section; the counter is threaded through the fold. -/
def notesGo : Nat → List Chars → List Chars
  | _, [] => []
  | counter, line :: rest =>
    if startsWithChars (strChars "### ") line ∧ line.drop 4 ≠ [] then
      let title := pyStrip (line.drop 4)
      if pyLower title ∈ excluded_headers then
        (strChars "\\subsubsection\x7b" ++ title ++ ['\x7d']) :: notesGo counter rest
      else
        (strChars "\\subsection\x7bSupplementary Note " ++ natChars (counter + 1) ++
          strChars ": " ++ title ++ strChars "\x7d\\label\x7bsnote:" ++
          noteLabelSlug title ++ ['\x7d']) :: notesGo (counter + 1) rest
    else
      line :: notesGo counter rest

def process_supplementary_notes (content : Chars) : Chars :=
  let marker := strChars "\\subsection\x7bSupplementary Notes\x7d"
  match splitOnce marker content with
  | none => content
  | some (before_notes, notes_section) =>
    let processed := joinLines (notesGo 0 (splitLines notes_section))
    before_notes ++ marker ++ processed

end supplementary_note_processor

/-! ## Spec-shaped section-key rules (for the refinement claim C6).
This definition follows the wording of the specification (a fixed table of
case-insensitive substring rules, with a slugified fallback) rather than the
source's if/elif chain; C6 compares the two. -/

/-- Each rule is a conjunction of disjunction-lists of substrings, with the
target key; the first rule whose condition holds wins. -/
def spec_section_rules : List (List (List Chars) × Chars) :=
  [([[strChars "abstract"]], strChars "abstract"),
   ([[strChars "introduction"]], strChars "main"),
   ([[strChars "method"]], strChars "methods"),
   ([[strChars "result"], [strChars "discussion"]], strChars "results_and_discussion"),
   ([[strChars "result"]], strChars "results"),
   ([[strChars "discussion"]], strChars "discussion"),
   ([[strChars "conclusion"]], strChars "conclusion"),
   ([[strChars "data availability", strChars "data access"]], strChars "data_availability"),
   ([[strChars "code availability", strChars "code access"]], strChars "code_availability"),
   ([[strChars "author contribution", strChars "contribution"]], strChars "author_contributions"),
   ([[strChars "acknowledgement", strChars "acknowledge"]], strChars "acknowledgements"),
   ([[strChars "funding", strChars "financial support", strChars "grant"]], strChars "funding")]

/-- First-match lookup over the rule table. -/
def firstRuleKey (t : Chars) : List (List (List Chars) × Chars) → Option Chars
  | [] => none
  | r :: rs =>
    if r.1.all (fun disj => disj.any fun p => containsSub p t) then some r.2
    else firstRuleKey t rs

/-- Modelled from the spec's section-mapping table: map a title by the first
matching substring rule (case-insensitively), or fall back to the lowercased
title with spaces and hyphens replaced by underscores. -/
def spec_map_section_title (title : Chars) : Chars :=
  let t := pyLower title
  match firstRuleKey t spec_section_rules with
  | some k => k
  | none => replaceAll ['-'] ['_'] (replaceAll [' '] ['_'] t)

/-! # Claims -/

/-- C1 counterexample: the input `@eq:x` carries the reserved prefix `eq:`,
yet `convert_markdown_to_latex` emits `\cite{eq}:x` — a `\cite` derived from
that token — because the citation regex's negative lookahead excludes only
`fig:`. -/
theorem C1_eq_prefix_emits_cite :
    md2tex.convert_markdown_to_latex (strChars "@eq:x") false = strChars "\\cite\x7beq\x7d:x" ∧
    containsSub (strChars "\\cite\x7beq\x7d")
      (md2tex.convert_markdown_to_latex (strChars "@eq:x") false) = true := by
  exact ⟨rfl, rfl⟩

/-- C1 (amended): only the `fig:` prefix is excluded by the citation regex.
`@fig:x` and `@sfig:x` are rewritten to `\ref{…}` by the earlier
figure-reference pass and never yield a `\cite`, but `@eq:x`, `@tbl:x`,
`@stable:x` and `@snote:x` each yield a `\cite` of the bare prefix word
(`\cite{eq}:x` and so on). -/
theorem C1_reserved_prefix_citations_amended :
    md2tex.convert_markdown_to_latex (strChars "@fig:abc") false =
      strChars "\\ref\x7bfig:abc\x7d" ∧
    md2tex.convert_markdown_to_latex (strChars "@sfig:abc") false =
      strChars "\\ref\x7bsfig:abc\x7d" ∧
    md2tex.convert_markdown_to_latex (strChars "@eq:abc") false =
      strChars "\\cite\x7beq\x7d:abc" ∧
    md2tex.convert_markdown_to_latex (strChars "@tbl:abc") false =
      strChars "\\cite\x7btbl\x7d:abc" ∧
    md2tex.convert_markdown_to_latex (strChars "@stable:abc") false =
      strChars "\\cite\x7bstable\x7d:abc" ∧
    md2tex.convert_markdown_to_latex (strChars "@snote:abc") false =
      strChars "\\cite\x7bsnote\x7d:abc" := by
  exact ⟨rfl, rfl, rfl, rfl, rfl, rfl⟩

/-- C2 counterexample: escaping `(a_b.md)` once yields `(a\_b.md)`, but
escaping the result again yields `(a\\_b.md)` — the parenthesized file-path
step re-escapes the already-escaped underscore, so the stage is not
idempotent. -/
theorem C2_double_escape_counterexample :
    escape_special_characters (escape_special_characters (strChars "(a_b.md)")) ≠
      escape_special_characters (strChars "(a_b.md)") ∧
    escape_special_characters (strChars "(a_b.md)") = strChars "(a\\_b.md)" ∧
    escape_special_characters (escape_special_characters (strChars "(a_b.md)")) =
      strChars "(a\\\\_b.md)" := by
  exact ⟨by decide, rfl, rfl⟩

/-- C2 (amended): the escaping stage is idempotent on filename patterns and
numbered files outside parentheses (an escaped `a\_b.md` or `00\_CONFIG` is
not re-matched), but the parenthesized file-path rule keys on the mere
presence of `.` and `_` and therefore re-escapes `\_` inside parentheses:
`(a_b.md)` escapes to `(a\_b.md)` and a second application yields
`(a\\_b.md)`. -/
theorem C2_escaping_idempotence_amended :
    escape_special_characters (strChars "(a_b.md)") = strChars "(a\\_b.md)" ∧
    escape_special_characters (escape_special_characters (strChars "(a_b.md)")) =
      strChars "(a\\\\_b.md)" ∧
    escape_special_characters (escape_special_characters (strChars "a_b.md")) =
      escape_special_characters (strChars "a_b.md") ∧
    escape_special_characters
        (escape_special_characters (strChars "see 00_CONFIG and my_file.tex")) =
      escape_special_characters (strChars "see 00_CONFIG and my_file.tex") := by
  exact ⟨rfl, rfl, rfl, rfl⟩

/-- C4 counterexample: a `{#snote:<id>} **Title**` header is left unchanged by
`process_supplementary_notes` (even inside a Supplementary Notes section) and
no `\label{snote:abc}` is produced; the function only rewrites `### Title`
headers. -/
theorem C4_snote_header_not_converted :
    (let inp := strChars "\\subsection\x7bSupplementary Notes\x7d\n\x7b#snote:abc\x7d **My Title**"
     supplementary_note_processor.process_supplementary_notes inp = inp ∧
     containsSub (strChars "\\label\x7bsnote:abc\x7d")
       (supplementary_note_processor.process_supplementary_notes inp) = false ∧
     containsSub (strChars "\\subsection\x7bMy Title\x7d")
       (supplementary_note_processor.process_supplementary_notes inp) = false) := by
  exact ⟨rfl, rfl, rfl⟩

/-- C4 (amended): `process_supplementary_notes` leaves content without a
`\subsection{Supplementary Notes}` marker unchanged; after the marker it
rewrites each `### Title` header to
`\subsection{Supplementary Note N: Title}\label{snote:<slugified-title>}` with
the number `N` counted in Python (no LaTeX counter reset is emitted), and
titles on the fixed exclusion list (File Structure and Organisation /
Organization) become `\subsubsection{Title}` and are not numbered.  The
`{#snote:<id>} **Title**` syntax is not handled by this function. -/
theorem C4_supplementary_notes_amended :
    supplementary_note_processor.process_supplementary_notes
        (strChars "\x7b#snote:abc\x7d **My Title**") =
      strChars "\x7b#snote:abc\x7d **My Title**" ∧
    supplementary_note_processor.process_supplementary_notes
        (strChars "\\subsection\x7bSupplementary Notes\x7d\n### First Note\nText.\n### File Structure and Organisation\nMore.\n### Second Note\nEnd.") =
      strChars "\\subsection\x7bSupplementary Notes\x7d\n\\subsection\x7bSupplementary Note 1: First Note\x7d\\label\x7bsnote:first_note\x7d\nText.\n\\subsubsection\x7bFile Structure and Organisation\x7d\nMore.\n\\subsection\x7bSupplementary Note 2: Second Note\x7d\\label\x7bsnote:second_note\x7d\nEnd." := by
  exact ⟨rfl, rfl⟩

/-- C8 counterexample: a fenced code block whose interior contains the literal
text `\end{verbatim}` escapes the wholesale verbatim protection — the
protection regex is lazy and stops at the interior `\end{verbatim}` — so the
interior text `@key_x` is rewritten to `\cite{key_x}` and does not appear in
the final output. -/
theorem C8_verbatim_leak_counterexample :
    (let inp := strChars "```\nA\n\\end\x7bverbatim\x7d\n@key_x\n```"
     containsSub (strChars "@key_x") inp = true ∧
     md2tex.convert_markdown_to_latex inp false =
       strChars "\\begin\x7bverbatim\x7d\nA\n\\end\x7bverbatim\x7d\n\\cite\x7bkey_x\x7d\n\\end\x7bverbatim\x7d" ∧
     containsSub (strChars "@key_x") (md2tex.convert_markdown_to_latex inp false) = false) := by
  exact ⟨rfl, rfl, rfl⟩

/-- C8 (amended): a fenced code block is converted to a verbatim environment
first, the whole environment is protected behind a placeholder before any
other pass runs, and the placeholder is restored only at the very end, so the
interior survives unchanged — provided the interior does not itself contain
an `\end{verbatim}`/`\end{minted}` terminator (the lazy protection regex stops
at the first one).  In particular the spec's scenario holds: a literal
`@not_a_citation` inside a fenced block is not turned into a citation. -/
theorem C8_protected_verbatim_amended :
    md2tex.convert_markdown_to_latex
        (strChars "```\nUse `@not_a_citation` literally\n```") false =
      strChars "\\begin\x7bverbatim\x7d\nUse `@not_a_citation` literally\n\\end\x7bverbatim\x7d" ∧
    containsSub (strChars "@not_a_citation")
      (md2tex.convert_markdown_to_latex
        (strChars "```\nUse `@not_a_citation` literally\n```") false) = true := by
  exact ⟨rfl, rfl⟩

/-! ## Supporting lemmas about the string primitives -/

theorem hasPrefixChars_append_self (p r : Chars) : hasPrefixChars p (p ++ r) = true := by
  induction p with
  | nil => rfl
  | cons c cs ih => simp [hasPrefixChars, ih]

theorem mem_of_hasPrefixChars {p l : Chars} (h : hasPrefixChars p l = true) :
    ∀ {x : Char}, x ∈ p → x ∈ l := by
  induction p generalizing l with
  | nil => intro x hx; cases hx
  | cons c cs ih =>
    cases l with
    | nil => simp [hasPrefixChars] at h
    | cons d ds =>
      simp only [hasPrefixChars, Bool.and_eq_true, decide_eq_true_eq] at h
      intro x hx
      rcases List.mem_cons.mp hx with hx | hx
      · exact hx ▸ h.1 ▸ List.mem_cons_self d ds
      · exact List.mem_cons_of_mem d (ih h.2 hx)

theorem replaceAllGo_of_not_mem {pat : Chars} (rep : Chars) {c₀ : Char} (hc : c₀ ∈ pat) :
    ∀ (f : Nat) (l : Chars), c₀ ∉ l → replaceAllGo pat rep f l = l := by
  intro f
  induction f with
  | zero => intro l _; rfl
  | succ n ih =>
    intro l hl
    cases l with
    | nil => rfl
    | cons c cs =>
      have hnp : ¬ (pat ≠ [] ∧ hasPrefixChars pat (c :: cs) = true) := by
        rintro ⟨-, hp⟩
        exact hl (mem_of_hasPrefixChars hp hc)
      simp only [replaceAllGo, if_neg hnp]
      rw [ih cs (fun h => hl (List.mem_cons_of_mem _ h))]

theorem replaceAll_of_not_mem {pat rep l : Chars} {c₀ : Char}
    (hc : c₀ ∈ pat) (hl : c₀ ∉ l) : replaceAll pat rep l = l :=
  replaceAllGo_of_not_mem rep hc _ l hl

theorem replaceAllGo_empty (pat rep : Chars) (f : Nat) : replaceAllGo pat rep f [] = [] := by
  cases f <;> rfl

theorem replaceAll_append_of_prefix {pat rep rest : Chars} {c₀ : Char}
    (hc : c₀ ∈ pat) (hrest : c₀ ∉ rest) :
    replaceAll pat rep (pat ++ rest) = rep ++ rest := by
  cases pat with
  | nil => cases hc
  | cons p ps =>
    have hpre : hasPrefixChars (p :: ps) (p :: (ps ++ rest)) = true := by
      have := hasPrefixChars_append_self (p :: ps) rest
      simpa using this
    have hdrop : List.drop ps.length (ps ++ rest) = rest := by
      have := List.drop_left ps rest
      simpa using this
    have hstep : ∀ f, replaceAllGo (p :: ps) rep (f + 1) (p :: (ps ++ rest)) =
        rep ++ replaceAllGo (p :: ps) rep f rest := by
      intro f
      simp [replaceAllGo, hpre, hdrop]
    have hlist : (p :: ps) ++ rest = p :: (ps ++ rest) := by simp
    have hlen : ((p :: ps) ++ rest).length = (ps ++ rest).length + 1 := by simp
    unfold replaceAll
    rw [hlen, hlist, hstep, replaceAllGo_of_not_mem rep hc _ rest hrest]

theorem replaceAllGo_append_of_suffix {ps rep : Chars} {p : Char} :
    ∀ (P : Chars) (f : Nat), (P ++ (p :: ps)).length ≤ f → p ∉ P →
      replaceAllGo (p :: ps) rep f (P ++ (p :: ps)) = P ++ rep := by
  intro P
  induction P with
  | nil =>
    intro f hf _
    simp only [List.nil_append] at hf ⊢
    cases f with
    | zero => simp at hf
    | succ n =>
      have hpre : hasPrefixChars (p :: ps) (p :: ps) = true := by
        have := hasPrefixChars_append_self (p :: ps) ([] : Chars)
        rwa [List.append_nil] at this
      have hdrop : List.drop (p :: ps).length (p :: ps) = ([] : Chars) :=
        List.drop_length (p :: ps)
      simp [replaceAllGo, hpre, replaceAllGo_empty]
  | cons c P ih =>
    intro f hf hmem
    have hne : p ≠ c := fun he => hmem (he ▸ List.mem_cons_self c P)
    cases f with
    | zero => simp at hf
    | succ n =>
      have hnpre : hasPrefixChars (p :: ps) (c :: (P ++ (p :: ps))) = false := by
        cases hb : hasPrefixChars (p :: ps) (c :: (P ++ (p :: ps)))
        · rfl
        · exfalso
          simp only [hasPrefixChars, Bool.and_eq_true, decide_eq_true_eq] at hb
          exact hne hb.1
      have hlen : (P ++ (p :: ps)).length ≤ n := by
        simp only [List.cons_append, List.length_cons] at hf
        simpa using Nat.le_of_succ_le_succ hf
      have hrec := ih n hlen (fun h => hmem (List.mem_cons_of_mem _ h))
      calc replaceAllGo (p :: ps) rep (n + 1) ((c :: P) ++ (p :: ps))
          = c :: replaceAllGo (p :: ps) rep n (P ++ (p :: ps)) := by
            simp [replaceAllGo, hnpre]
        _ = c :: (P ++ rep) := by rw [hrec]
        _ = (c :: P) ++ rep := by simp

theorem replaceAll_append_of_suffix {pat rep P : Chars} {h₀ : Char}
    (hh : pat.head? = some h₀) (hP : h₀ ∉ P) :
    replaceAll pat rep (P ++ pat) = P ++ rep := by
  cases pat with
  | nil => cases hh
  | cons p ps =>
    have hp : p = h₀ := by
      simp only [List.head?] at hh
      injection hh
    subst hp
    exact replaceAllGo_append_of_suffix P _ (Nat.le_refl _) hP

theorem pySplitGo_of_not_mem {sep : Chars} {c₀ : Char} (hc : c₀ ∈ sep) :
    ∀ (f : Nat) (acc l : Chars), c₀ ∉ l → pySplitGo sep f acc l = [acc.reverse ++ l] := by
  intro f
  induction f with
  | zero => intro acc l _; rfl
  | succ n ih =>
    intro acc l hl
    cases l with
    | nil => simp [pySplitGo]
    | cons c cs =>
      have hnpre : hasPrefixChars sep (c :: cs) = false := by
        cases hb : hasPrefixChars sep (c :: cs)
        · rfl
        · exact absurd (mem_of_hasPrefixChars hb hc) hl
      have hrec := ih (c :: acc) cs (fun h => hl (List.mem_cons_of_mem _ h))
      calc pySplitGo sep (n + 1) acc (c :: cs)
          = pySplitGo sep n (c :: acc) cs := by simp [pySplitGo, hnpre]
        _ = [(c :: acc).reverse ++ cs] := hrec
        _ = [acc.reverse ++ (c :: cs)] := by simp

theorem pySplit_append_of_prefix {sep rest : Chars} {c₀ : Char}
    (hc : c₀ ∈ sep) (hrest : c₀ ∉ rest) :
    pySplit sep (sep ++ rest) = [[], rest] := by
  cases sep with
  | nil => cases hc
  | cons s ss =>
    have hpre : hasPrefixChars (s :: ss) (s :: (ss ++ rest)) = true := by
      have := hasPrefixChars_append_self (s :: ss) rest
      simpa using this
    have hdrop : List.drop ss.length (ss ++ rest) = rest := by
      have := List.drop_left ss rest
      simpa using this
    have hstep : ∀ f, pySplitGo (s :: ss) (f + 1) [] (s :: (ss ++ rest)) =
        [] :: pySplitGo (s :: ss) f [] rest := by
      intro f
      simp [pySplitGo, hpre, hdrop]
    have hlist : (s :: ss) ++ rest = s :: (ss ++ rest) := by simp
    have hlen : ((s :: ss) ++ rest).length = (ss ++ rest).length + 1 := by simp
    unfold pySplit
    rw [hlen, hlist, hstep, pySplitGo_of_not_mem hc _ [] rest hrest]
    rfl

theorem containsSub_eq_false_of_not_mem {pat l : Chars} {c₀ : Char}
    (hc : c₀ ∈ pat) (hl : c₀ ∉ l) : containsSub pat l = false := by
  induction l with
  | nil =>
    cases hpat : pat with
    | nil => rw [hpat] at hc; cases hc
    | cons p ps => simp [containsSub, hpat, hasPrefixChars]
  | cons c cs ih =>
    have h1 : hasPrefixChars pat (c :: cs) = false := by
      cases hp : hasPrefixChars pat (c :: cs)
      · rfl
      · exact absurd (mem_of_hasPrefixChars hp hc) hl
    simp only [containsSub, h1, Bool.false_or]
    exact ih (fun h => hl (List.mem_cons_of_mem _ h))

theorem rfindChar_eq_none_of_not_mem {l : Chars} {c : Char} (h : c ∉ l) :
    rfindChar l c = none := by
  induction l with
  | nil => rfl
  | cons x xs ih =>
    have hx : x ≠ c := fun he => h (he ▸ List.mem_cons_self x xs)
    simp only [rfindChar, ih (fun hm => h (List.mem_cons_of_mem _ hm)), if_neg hx]

theorem rfindChar_append (l1 l2 : Chars) (c : Char) :
    rfindChar (l1 ++ l2) c =
      match rfindChar l2 c with
      | some i => some (l1.length + i)
      | none => rfindChar l1 c := by
  induction l1 with
  | nil =>
    cases h2 : rfindChar l2 c <;> simp [rfindChar, h2]
  | cons x xs ih =>
    show rfindChar (x :: (xs ++ l2)) c = _
    simp only [rfindChar, ih]
    cases h2 : rfindChar l2 c with
    | some i =>
      simp only [List.length_cons]
      congr 1
      omega
    | none =>
      cases hx : rfindChar xs c <;> simp

theorem endsWithChars_append_self (pat l : Chars) : endsWithChars pat (l ++ pat) = true := by
  unfold endsWithChars
  rw [List.reverse_append]
  exact hasPrefixChars_append_self pat.reverse l.reverse

/-! ## Lemmas for the figure-path normalisation (C3) -/

theorem not_mem_append_svg {name : Chars} (h2 : '/' ∉ name) :
    '/' ∉ name ++ strChars ".svg" := by
  intro h
  rcases List.mem_append.mp h with h | h
  · exact h2 h
  · revert h; decide

theorem not_mem_dot_append_svg {name : Chars} (h2 : '/' ∉ name) :
    '/' ∉ name ++ strChars ".png" := by
  intro h
  rcases List.mem_append.mp h with h | h
  · exact h2 h
  · revert h; decide

theorem rfind_name_svg_dot (name : Chars) (h3 : '.' ∉ name) :
    rfindChar (name ++ strChars ".svg") '.' = some name.length := by
  rw [rfindChar_append]
  have h2 : rfindChar (strChars ".svg") '.' = some 0 := by decide
  rw [h2]
  simp

theorem rfind_name_svg_slash (name : Chars) (h2 : '/' ∉ name) :
    rfindChar (name ++ strChars ".svg") '/' = none := by
  rw [rfindChar_append]
  have hs : rfindChar (strChars ".svg") '/' = none := by decide
  rw [hs]
  exact rfindChar_eq_none_of_not_mem h2

theorem name_any_ne_dot {name : Chars} (h1 : name ≠ []) (h3 : '.' ∉ name) :
    name.any (· ≠ '.') = true := by
  cases name with
  | nil => exact absurd rfl h1
  | cons c cs =>
    apply List.any_eq_true.mpr
    refine ⟨c, List.mem_cons_self c cs, ?_⟩
    simp only [ne_eq, decide_eq_true_eq]
    intro he
    exact h3 (he ▸ List.mem_cons_self c cs)

theorem pySplitext_name_svg (name : Chars) (h1 : name ≠ []) (h3 : '.' ∉ name)
    (h2 : '/' ∉ name) :
    figure_processor.pySplitext (name ++ strChars ".svg") = (name, strChars ".svg") := by
  unfold figure_processor.pySplitext
  rw [rfind_name_svg_slash name h2, rfind_name_svg_dot name h3]
  have hcond : 0 ≤ name.length ∧
      (((name ++ strChars ".svg").drop 0).take (name.length - 0)).any (· ≠ '.') = true := by
    constructor
    · exact Nat.zero_le _
    · rw [List.drop_zero, Nat.sub_zero, List.take_left]
      exact name_any_ne_dot h1 h3
  simp only [if_pos hcond]
  rw [List.take_left, List.drop_left]

theorem pyBasename_figures (rest : Chars) (h : '/' ∉ rest) :
    figure_processor.pyBasename (strChars "Figures/" ++ rest) = rest := by
  unfold figure_processor.pyBasename
  rw [rfindChar_append, rfindChar_eq_none_of_not_mem h]
  have h7 : rfindChar (strChars "Figures/") '/' = some 7 := by decide
  rw [h7]
  show List.drop (7 + 1) (strChars "Figures/" ++ rest) = rest
  have : (strChars "Figures/").length = 7 + 1 := by decide
  rw [← this, List.drop_left]

theorem pySplitext_figures_ext (name : Chars) (h1 : name ≠ []) (h2 : '/' ∉ name)
    (h3 : '.' ∉ name) :
    (figure_processor.pySplitext (strChars "Figures/" ++ (name ++ strChars ".svg"))).2 =
      strChars ".svg" := by
  unfold figure_processor.pySplitext
  have hsl : rfindChar (strChars "Figures/" ++ (name ++ strChars ".svg")) '/' = some 7 := by
    rw [rfindChar_append, rfind_name_svg_slash name h2]
    decide
  have hdot : rfindChar (strChars "Figures/" ++ (name ++ strChars ".svg")) '.' =
      some (8 + name.length) := by
    rw [rfindChar_append, rfind_name_svg_dot name h3]
    have hl : (strChars "Figures/").length = 8 := by decide
    simp [hl]
  rw [hsl, hdot]
  have hdrop8 : (strChars "Figures/" ++ (name ++ strChars ".svg")).drop (7 + 1) =
      name ++ strChars ".svg" := by
    have hlen : (strChars "Figures/").length = 7 + 1 := by decide
    rw [← hlen, List.drop_left]
  have hcond : 7 + 1 ≤ 8 + name.length ∧
      (((strChars "Figures/" ++ (name ++ strChars ".svg")).drop (7 + 1)).take
        (8 + name.length - (7 + 1))).any (· ≠ '.') = true := by
    constructor
    · omega
    · rw [hdrop8]
      have : 8 + name.length - (7 + 1) = name.length := by omega
      rw [this, List.take_left]
      exact name_any_ne_dot h1 h3
  simp only [if_pos hcond]
  have hassoc : strChars "Figures/" ++ (name ++ strChars ".svg") =
      (strChars "Figures/" ++ name) ++ strChars ".svg" := by
    rw [List.append_assoc]
  have hlen2 : (strChars "Figures/" ++ name).length = 8 + name.length := by
    rw [List.length_append]
    rfl
  show (strChars "Figures/" ++ (name ++ strChars ".svg")).drop (8 + name.length) =
    strChars ".svg"
  rw [hassoc, ← hlen2, List.drop_left]

theorem subdirInsert_eq (name : Chars) (h1 : name ≠ []) (h2 : '/' ∉ name)
    (h3 : '.' ∉ name) :
    figure_processor.subdirInsert (strChars "Figures/" ++ (name ++ strChars ".svg")) =
      strChars "Figures/" ++ name ++ ['/'] ++ name ++ strChars ".svg" := by
  unfold figure_processor.subdirInsert
  have hsplit : pySplit (strChars "Figures/") (strChars "Figures/" ++ (name ++ strChars ".svg")) =
      [[], name ++ strChars ".svg"] :=
    pySplit_append_of_prefix (by decide) (not_mem_append_svg h2)
  rw [hsplit]
  have hlast : ([[], name ++ strChars ".svg"] : List Chars).getLastD [] =
      name ++ strChars ".svg" := by
    simp [List.getLastD]
  rw [hlast]
  have hnosub : containsSub ['/'] (name ++ strChars ".svg") = false :=
    containsSub_eq_false_of_not_mem (List.mem_cons_self '/' [])
      (not_mem_append_svg h2)
  rw [hnosub]
  simp only [Bool.not_false, if_pos trivial, ite_true]
  rw [pyBasename_figures _ (not_mem_append_svg h2)]
  rw [pySplitext_name_svg name h1 h3 h2]
  rw [pySplitext_figures_ext name h1 h2 h3]
  simp [List.append_assoc]

theorem svgToPng_eq (name : Chars) (h2 : '/' ∉ name) (h3 : '.' ∉ name) :
    figure_processor.svgToPng
        (strChars "Figures/" ++ name ++ ['/'] ++ name ++ strChars ".svg") =
      strChars "Figures/" ++ name ++ ['/'] ++ name ++ strChars ".png" := by
  unfold figure_processor.svgToPng
  have hshape : strChars "Figures/" ++ name ++ ['/'] ++ name ++ strChars ".svg" =
      (strChars "Figures/" ++ name ++ ['/'] ++ name) ++ strChars ".svg" := by
    simp [List.append_assoc]
  have hends : endsWithChars (strChars ".svg")
      (strChars "Figures/" ++ name ++ ['/'] ++ name ++ strChars ".svg") = true := by
    rw [hshape]
    exact endsWithChars_append_self _ _
  rw [hends]
  have hdotfree : '.' ∉ strChars "Figures/" ++ name ++ ['/'] ++ name := by
    intro h
    rcases List.mem_append.mp h with h | h
    · rcases List.mem_append.mp h with h | h
      · rcases List.mem_append.mp h with h | h
        · revert h; decide
        · exact h3 h
      · revert h; decide
    · exact h3 h
  rw [if_pos rfl]
  rw [hshape, replaceAll_append_of_suffix (by decide) hdotfree]

/-- C3: figure path normalisation.  For every source path `FIGURES/<name>.svg`
whose stem has no subdirectory segment (and no extra dots), the normalised
path is `Figures/<name>/<name>.png`: `FIGURES/` is rewritten to `Figures/`,
the per-figure subdirectory is inserted, and the `.svg` extension becomes
`.png`.  Concretely, `![Caption](FIGURES/fig1.svg){#fig:one width="0.5"}`
converts to a figure environment with
`\includegraphics[width=0.5\linewidth]{Figures/fig1/fig1.png}`,
`\caption{Caption}` and `\label{fig:one}`. -/
theorem C3_figure_path_normalization (name : Chars) (h1 : name ≠ [])
    (h2 : '/' ∉ name) (h3 : '.' ∉ name) :
    figure_processor.figureLatexPath (strChars "FIGURES/" ++ name ++ strChars ".svg") =
      strChars "Figures/" ++ name ++ ['/'] ++ name ++ strChars ".png" ∧
    (let out := figure_processor.convert_figures_to_latex
        (strChars "![Caption](FIGURES/fig1.svg)\x7b#fig:one width=\"0.5\"\x7d")
     out = strChars "\\begin\x7bfigure\x7d[ht]\n\\centering\n\\includegraphics[width=0.5\\linewidth]\x7bFigures/fig1/fig1.png\x7d\n\\caption\x7bCaption\x7d\n\\label\x7bfig:one\x7d\n\\end\x7bfigure\x7d" ∧
     containsSub (strChars "\\includegraphics[width=0.5\\linewidth]\x7bFigures/fig1/fig1.png\x7d") out = true ∧
     containsSub (strChars "\\caption\x7bCaption\x7d") out = true ∧
     containsSub (strChars "\\label\x7bfig:one\x7d") out = true) := by
  constructor
  · have hassoc : strChars "FIGURES/" ++ name ++ strChars ".svg" =
        strChars "FIGURES/" ++ (name ++ strChars ".svg") := by
      rw [List.append_assoc]
    unfold figure_processor.figureLatexPath
    rw [hassoc, replaceAll_append_of_prefix (by decide : '/' ∈ strChars "FIGURES/")
      (not_mem_append_svg h2), subdirInsert_eq name h1 h2 h3, svgToPng_eq name h2 h3]
  · exact ⟨rfl, rfl, rfl, rfl⟩

/-- C3 witness: the path lemma and the concrete conversion at `name := fig1`. -/
theorem C3_figure_path_normalization_witness :
    figure_processor.figureLatexPath
        (strChars "FIGURES/" ++ strChars "fig1" ++ strChars ".svg") =
      strChars "Figures/" ++ strChars "fig1" ++ ['/'] ++ strChars "fig1" ++
        strChars ".png" ∧
    (let out := figure_processor.convert_figures_to_latex
        (strChars "![Caption](FIGURES/fig1.svg)\x7b#fig:one width=\"0.5\"\x7d")
     out = strChars "\\begin\x7bfigure\x7d[ht]\n\\centering\n\\includegraphics[width=0.5\\linewidth]\x7bFigures/fig1/fig1.png\x7d\n\\caption\x7bCaption\x7d\n\\label\x7bfig:one\x7d\n\\end\x7bfigure\x7d" ∧
     containsSub (strChars "\\includegraphics[width=0.5\\linewidth]\x7bFigures/fig1/fig1.png\x7d") out = true ∧
     containsSub (strChars "\\caption\x7bCaption\x7d") out = true ∧
     containsSub (strChars "\\label\x7bfig:one\x7d") out = true) :=
  C3_figure_path_normalization (strChars "fig1") (by decide) (by decide) (by decide)

/-- C7: table cell-count invariant.  Every data row collected by the table
scanner is padded with empty cells / truncated to exactly the header's column
count (the padding/truncation is total, never an error), and cell formatting
preserves the count, so each emitted data row is the `" & "`-join of exactly
`headers.length` cells. -/
theorem C7_table_cell_count_invariant (numCols fuel : Nat) (lines : List Chars)
    (cells : List Chars) (pbc : PyDict) (isMd isHdr : Bool)
    (headers : List Chars) (rows : List (List Chars)) :
    ((cells ++ List.replicate (numCols - cells.length) []).take numCols).length = numCols ∧
    (∀ r ∈ (md2tex.collectRows numCols fuel lines).1, r.length = numCols) ∧
    ((∀ r ∈ rows, r.length = headers.length) →
      ∀ r ∈ rows, (r.map (md2tex.format_cell pbc isMd isHdr)).length = headers.length) := by
  refine ⟨?_, ?_, ?_⟩
  · simp only [List.length_take, List.length_append, List.length_replicate]
    omega
  · induction fuel generalizing lines with
    | zero =>
      intro r hr
      simp [md2tex.collectRows] at hr
    | succ n ih =>
      intro r hr
      cases lines with
      | nil => simp [md2tex.collectRows] at hr
      | cons line rest =>
        simp only [md2tex.collectRows] at hr
        split at hr
        · split at hr
          · rcases List.mem_cons.mp hr with hr | hr
            · subst hr
              simp only [List.length_take, List.length_append, List.length_replicate]
              omega
            · exact ih rest r hr
          · simp at hr
        · simp at hr
  · intro hlen r hr
    rw [List.length_map]
    exact hlen r hr

/-- C7 witness: a concrete malformed table (one short row, one long row)
collected at two columns. -/
theorem C7_table_cell_count_invariant_witness :
    (((strChars "a" :: []) ++
        List.replicate (2 - (strChars "a" :: []).length) []).take 2).length = 2 ∧
    (∀ r ∈ (md2tex.collectRows 2 3 [strChars "| x |", strChars "| a | b | c |"]).1,
      r.length = 2) ∧
    ((∀ r ∈ [[strChars "a", strChars "b"]],
        r.length = [strChars "H1", strChars "H2"].length) →
      ∀ r ∈ [[strChars "a", strChars "b"]],
        (r.map (md2tex.format_cell [] false false)).length =
          [strChars "H1", strChars "H2"].length) :=
  C7_table_cell_count_invariant 2 3 [strChars "| x |", strChars "| a | b | c |"]
    (strChars "a" :: []) [] false false [strChars "H1", strChars "H2"]
    [[strChars "a", strChars "b"]]

/-- C10: input sniffing in `extract_content_sections`.  A string that does not
start with `#` or `---` and contains no newline is treated as a file path: if
the file system has no such file the call raises `FileNotFoundError` instead of
returning a section map.  Any input that starts with `#` or `---` or contains a
newline is processed as manuscript content, with no dependence on the file
system. -/
theorem C10_input_sniffing (fs fs' : Chars → Option Chars) (s : Chars) :
    (startsWithChars (strChars "#") s = false →
     startsWithChars (strChars "---") s = false →
     containsSub (strChars "\n") s = false →
     fs s = none →
     md2tex.extract_content_sections fs s =
       Except.error (strChars "FileNotFoundError")) ∧
    ((startsWithChars (strChars "#") s = true ∨
      startsWithChars (strChars "---") s = true ∨
      containsSub (strChars "\n") s = true) →
     md2tex.extract_content_sections fs s =
       Except.ok (md2tex.extract_sections_from_content s) ∧
     md2tex.extract_content_sections fs s = md2tex.extract_content_sections fs' s) := by
  constructor
  · intro h1 h2 h3 hfs
    unfold md2tex.extract_content_sections
    rw [if_neg (by simp [h1, h2, h3])]
    rw [hfs]
  · intro h
    have e : ∀ g : Chars → Option Chars,
        md2tex.extract_content_sections g s =
          Except.ok (md2tex.extract_sections_from_content s) := by
      intro g
      unfold md2tex.extract_content_sections
      rw [if_pos (by tauto)]
    exact ⟨e fs, (e fs).trans (e fs').symm⟩

/-- C10 witness: a missing path raises, and content starting with `#` is
processed without touching the file system. -/
theorem C10_input_sniffing_witness :
    md2tex.extract_content_sections (fun _ => none) (strChars "missing.md") =
      Except.error (strChars "FileNotFoundError") ∧
    md2tex.extract_content_sections (fun _ => none) (strChars "# x") =
      Except.ok (md2tex.extract_sections_from_content (strChars "# x")) :=
  ⟨(C10_input_sniffing (fun _ => none) (fun _ => none) (strChars "missing.md")).1
      (by decide) (by decide) (by decide) rfl,
   ((C10_input_sniffing (fun _ => none) (fun _ => none) (strChars "# x")).2
      (Or.inl (by decide))).1⟩

/-- C6: section extraction and key mapping.  The source's `if/elif` chain in
`map_section_title_to_key` agrees with the spec's rule table
(`spec_map_section_title`) on every title, including the slugified fallback;
and `extract_content_sections` splits on `^## ` headers, assigns the content
before the first header to `main` when non-empty, and runs each section body
through the conversion pipeline independently. -/
theorem C6_section_extraction_and_key_mapping :
    (∀ title : Chars, md2tex.map_section_title_to_key title = spec_map_section_title title) ∧
    md2tex.extract_sections_from_content
        (strChars "# Title\nIntro text.\n## Methods\nbody1 stuff\n## Results and Discussion\nbody2 stuff") =
      [(strChars "main", md2tex.convert_markdown_to_latex (strChars "# Title\nIntro text.") false),
       (strChars "methods", md2tex.convert_markdown_to_latex (strChars "body1 stuff") false),
       (strChars "results_and_discussion",
        md2tex.convert_markdown_to_latex (strChars "body2 stuff") false)] ∧
    md2tex.extract_sections_from_content (strChars "## Methods\nbody1") =
      [(strChars "methods", md2tex.convert_markdown_to_latex (strChars "body1") false)] ∧
    md2tex.extract_sections_from_content (strChars "## Custom Weird-Section\nbody") =
      [(strChars "custom_weird_section", md2tex.convert_markdown_to_latex (strChars "body") false)] := by
  refine ⟨?_, rfl, rfl, rfl⟩
  intro title
  unfold md2tex.map_section_title_to_key spec_map_section_title spec_section_rules
  cases h1 : containsSub (strChars "abstract") (pyLower title) with
  | true =>
    simp [firstRuleKey, h1]
  | false =>
    cases h2 : containsSub (strChars "introduction") (pyLower title) with
    | true =>
      simp [firstRuleKey, h1, h2]
    | false =>
      cases h3 : containsSub (strChars "method") (pyLower title) with
      | true =>
        simp [firstRuleKey, h1, h2, h3]
      | false =>
        cases h4 : containsSub (strChars "result") (pyLower title) with
        | true =>
          cases h5 : containsSub (strChars "discussion") (pyLower title) with
          | true =>
            simp [firstRuleKey, h1, h2, h3, h4, h5]
          | false =>
            simp [firstRuleKey, h1, h2, h3, h4, h5]
        | false =>
          cases h6 : containsSub (strChars "discussion") (pyLower title) with
          | true =>
            simp [firstRuleKey, h1, h2, h3, h4, h6]
          | false =>
            cases h7 : containsSub (strChars "conclusion") (pyLower title) with
            | true =>
              simp [firstRuleKey, h1, h2, h3, h4, h6, h7]
            | false =>
              cases h8 : containsSub (strChars "data availability") (pyLower title) with
              | true =>
                simp [firstRuleKey, h1, h2, h3, h4, h6, h7, h8]
              | false =>
                cases h9 : containsSub (strChars "data access") (pyLower title) with
                | true =>
                  simp [firstRuleKey, h1, h2, h3, h4, h6, h7, h8, h9]
                | false =>
                  cases h10 : containsSub (strChars "code availability") (pyLower title) with
                  | true =>
                    simp [firstRuleKey, h1, h2, h3, h4, h6, h7, h8, h9, h10]
                  | false =>
                    cases h11 : containsSub (strChars "code access") (pyLower title) with
                    | true =>
                      simp [firstRuleKey, h1, h2, h3, h4, h6, h7, h8, h9, h10, h11]
                    | false =>
                      cases h12 : containsSub (strChars "author contribution") (pyLower title) with
                      | true =>
                        simp [firstRuleKey, h1, h2, h3, h4, h6, h7, h8, h9, h10, h11, h12]
                      | false =>
                        cases h13 : containsSub (strChars "contribution") (pyLower title) with
                        | true =>
                          simp [firstRuleKey, h1, h2, h3, h4, h6, h7, h8, h9, h10, h11, h12, h13]
                        | false =>
                          cases h14 : containsSub (strChars "acknowledgement") (pyLower title) with
                          | true =>
                            simp [firstRuleKey, h1, h2, h3, h4, h6, h7, h8, h9, h10, h11, h12, h13, h14]
                          | false =>
                            cases h15 : containsSub (strChars "acknowledge") (pyLower title) with
                            | true =>
                              simp [firstRuleKey, h1, h2, h3, h4, h6, h7, h8, h9, h10, h11, h12, h13, h14, h15]
                            | false =>
                              cases h16 : containsSub (strChars "funding") (pyLower title) with
                              | true =>
                                simp [firstRuleKey, h1, h2, h3, h4, h6, h7, h8, h9, h10, h11, h12, h13, h14, h15, h16]
                              | false =>
                                cases h17 : containsSub (strChars "financial support") (pyLower title) with
                                | true =>
                                  simp [firstRuleKey, h1, h2, h3, h4, h6, h7, h8, h9, h10, h11, h12, h13, h14, h15, h16, h17]
                                | false =>
                                  cases h18 : containsSub (strChars "grant") (pyLower title) with
                                  | true =>
                                    simp [firstRuleKey, h1, h2, h3, h4, h6, h7, h8, h9, h10, h11, h12, h13, h14, h15, h16, h17, h18]
                                  | false =>
                                    simp [firstRuleKey, h1, h2, h3, h4, h6, h7, h8, h9, h10, h11, h12, h13, h14, h15, h16, h17, h18]

/-! ## Lemmas for the bracketed-citation claim (C9) -/

theorem subst_nil (m : Chars → Option (Chars × Chars × Chars)) (f : Nat) :
    subst m f [] = [] := by
  cases f <;> rfl

theorem subst_id_of_no_trigger {m : Chars → Option (Chars × Chars × Chars)}
    {trig : Char → Bool} (hm : ∀ c cs, trig c = false → m (c :: cs) = none) :
    ∀ (f : Nat) (l : Chars), (∀ c ∈ l, trig c = false) → subst m f l = l := by
  intro f
  induction f with
  | zero => intro l _; rfl
  | succ n ih =>
    intro l hl
    cases l with
    | nil => rfl
    | cons c cs =>
      simp only [subst, hm c cs (hl c (List.mem_cons_self c cs))]
      rw [ih cs (fun d hd => hl d (List.mem_cons_of_mem _ hd))]

theorem singleCiteMatch_none {c : Char} {cs : Chars} (h : c ≠ '@') :
    md2tex.singleCiteMatch (c :: cs) = none := by
  rw [md2tex.singleCiteMatch.eq_def]
  split
  · rename_i heq
    injection heq with h1 _
    exact absurd h1 h
  · rfl

theorem citeKey_not_ws {c : Char} (h : isCiteKeyChar c = true) :
    isPyWhitespace c = false := by
  cases hws : isPyWhitespace c
  · rfl
  · exfalso
    simp only [isPyWhitespace, Bool.or_eq_true, decide_eq_true_eq] at hws
    rcases hws with (((((rfl | rfl) | rfl) | rfl) | rfl) | rfl) <;>
      exact absurd h (by decide)

theorem citeKey_ne {c x : Char} (h : isCiteKeyChar c = true)
    (hx : isCiteKeyChar x = false) : c ≠ x := by
  intro he
  rw [he] at h
  rw [h] at hx
  cases hx

theorem takeWhile_append_all {p : Char → Bool} {l : Chars} (r : Chars)
    (hl : ∀ c ∈ l, p c = true) (hr : ∀ x, r.head? = some x → p x = false) :
    (l ++ r).takeWhile p = l := by
  induction l with
  | nil =>
    cases r with
    | nil => rfl
    | cons x xs =>
      simp [List.takeWhile, hr x rfl]
  | cons c cs ih =>
    simp only [List.cons_append, List.takeWhile, hl c (List.mem_cons_self c cs)]
    rw [List.append_eq, ih (fun d hd => hl d (List.mem_cons_of_mem _ hd))]

theorem mem_joinWith {c : Char} {sep : Chars} {parts : List Chars}
    (h : c ∈ joinWith sep parts) : c ∈ sep ∨ ∃ p ∈ parts, c ∈ p := by
  induction parts with
  | nil => cases h
  | cons x xs ih =>
    cases xs with
    | nil =>
      right
      exact ⟨x, List.mem_cons_self x [], h⟩
    | cons y ys =>
      rw [show joinWith sep (x :: y :: ys) = x ++ sep ++ joinWith sep (y :: ys) from rfl] at h
      rcases List.mem_append.mp h with h | h
      · rcases List.mem_append.mp h with h | h
        · exact Or.inr ⟨x, List.mem_cons_self x _, h⟩
        · exact Or.inl h
      · rcases ih h with h | ⟨p, hp, hcp⟩
        · exact Or.inl h
        · exact Or.inr ⟨p, List.mem_cons_of_mem _ hp, hcp⟩

theorem pySplitGo_through {sep : Char} {rest : Chars} :
    ∀ (p : Chars) (acc : Chars) (f : Nat), (∀ c ∈ p, c ≠ sep) →
      pySplitGo [sep] (p.length + 1 + f) acc (p ++ sep :: rest) =
        (acc.reverse ++ p) :: pySplitGo [sep] f [] rest := by
  intro p
  induction p with
  | nil =>
    intro acc f _
    have hpre : hasPrefixChars [sep] (sep :: rest) = true := by
      simp [hasPrefixChars]
    have hf : ([] : Chars).length + 1 + f = f + 1 := by simp; omega
    rw [hf]
    show pySplitGo [sep] (f + 1) acc (sep :: rest) = _
    simp [pySplitGo, hpre]
  | cons c cs ih =>
    intro acc f hp
    have hne : c ≠ sep := hp c (List.mem_cons_self c cs)
    have hnpre : hasPrefixChars [sep] (c :: (cs ++ sep :: rest)) = false := by
      simp [hasPrefixChars]
      exact fun he => hne he.symm
    have hstep : (c :: cs).length + 1 + f = (cs.length + 1 + f) + 1 := by
      simp
      omega
    rw [hstep]
    show pySplitGo [sep] ((cs.length + 1 + f) + 1) acc (c :: (cs ++ sep :: rest)) = _
    simp only [pySplitGo, hnpre, List.cons_ne_nil, ne_eq, not_false_eq_true, true_and,
      Bool.false_eq_true, and_false, if_false, if_neg]
    rw [ih (c :: acc) f (fun d hd => hp d (List.mem_cons_of_mem _ hd))]
    simp

theorem pySplit_single_join {sep : Char} :
    ∀ (parts : List Chars), parts ≠ [] → (∀ part ∈ parts, sep ∉ part) →
      pySplit [sep] (joinWith [sep] parts) = parts := by
  intro parts
  induction parts with
  | nil => intro h _; exact absurd rfl h
  | cons p ps ih =>
    intro _ hmem
    cases ps with
    | nil =>
      show pySplit [sep] p = [p]
      unfold pySplit
      rw [pySplitGo_of_not_mem (List.mem_cons_self sep []) _ [] p
        (hmem p (List.mem_cons_self p []))]
      rfl
    | cons q qs =>
      have hjoin : joinWith [sep] (p :: q :: qs) = p ++ sep :: joinWith [sep] (q :: qs) := by
        show p ++ [sep] ++ joinWith [sep] (q :: qs) = _
        simp
      rw [hjoin]
      unfold pySplit
      have hlen : (p ++ sep :: joinWith [sep] (q :: qs)).length =
          p.length + 1 + (joinWith [sep] (q :: qs)).length := by
        simp
        omega
      rw [hlen]
      have hnot : ∀ c ∈ p, c ≠ sep := by
        intro c hc he
        exact hmem p (List.mem_cons_self p _) (he ▸ hc)
      rw [pySplitGo_through p [] _ hnot]
      have := ih (by simp) (fun part hpt => hmem part (List.mem_cons_of_mem _ hpt))
      unfold pySplit at this
      rw [this]
      simp

theorem lstripWs_eq_self {l : Chars} (h : ∀ c ∈ l, isPyWhitespace c = false) :
    lstripWs l = l := by
  cases l with
  | nil => rfl
  | cons c cs =>
    simp [lstripWs, List.dropWhile, h c (List.mem_cons_self c cs)]

theorem rstripWs_eq_self {l : Chars} (h : ∀ c ∈ l, isPyWhitespace c = false) :
    rstripWs l = l := by
  unfold rstripWs
  have hd : l.reverse.dropWhile isPyWhitespace = l.reverse := by
    cases hr : l.reverse with
    | nil => rfl
    | cons c cs =>
      have hc : c ∈ l := List.mem_reverse.mp (hr ▸ List.mem_cons_self c cs)
      simp [List.dropWhile, h c hc]
  rw [hd, List.reverse_reverse]

theorem pyStrip_eq_self {l : Chars} (h : ∀ c ∈ l, isPyWhitespace c = false) :
    pyStrip l = l := by
  unfold pyStrip
  rw [lstripWs_eq_self h, rstripWs_eq_self h]

theorem lstripChar_at_cite {k : Chars} (hk : ∀ c ∈ k, isCiteKeyChar c = true) :
    lstripChar '@' ('@' :: k) = k := by
  cases k with
  | nil => rfl
  | cons c cs =>
    have hc : c ≠ '@' := citeKey_ne (hk c (List.mem_cons_self c cs)) (by decide)
    show List.dropWhile (fun x => x = '@') ('@' :: c :: cs) = c :: cs
    simp [List.dropWhile, hc]

theorem bracketedCiteMatch_spec {inner : Chars} (h1 : 2 ≤ inner.length)
    (h2 : inner.head? = some '@') (h3 : ∀ c ∈ inner, c ≠ ']') :
    md2tex.bracketedCiteMatch ('[' :: (inner ++ [']'])) =
      some (md2tex.process_multiple_citations inner, '[' :: inner ++ [']'], []) := by
  have htake : (inner ++ [']']).takeWhile (fun c => c ≠ ']') = inner := by
    apply takeWhile_append_all
    · intro c hc
      simp [h3 c hc]
    · intro x hx
      injection hx with hx
      subst hx
      decide
  have hdropHead : ((inner ++ [']']).drop inner.length).head? = some ']' := by
    rw [List.drop_left]
    rfl
  have hdropAll : (inner ++ [']']).drop (inner.length + 1) = [] := by
    have hl : inner.length + 1 = (inner ++ [']']).length := by simp
    rw [hl, List.drop_length]
  rw [md2tex.bracketedCiteMatch.eq_def]
  split
  · rename_i rest heq
    injection heq with _ h4
    subst h4
    simp only [htake, hdropHead, hdropAll]
    rw [if_pos ⟨h1, h2, trivial⟩]
  · rename_i h
    exact (h (inner ++ [']']) rfl).elim

theorem citeList_map_id {keys : List Chars}
    (hk : ∀ k ∈ keys, k ≠ [] ∧ ∀ c ∈ k, isCiteKeyChar c = true) :
    (keys.map (fun k => '@' :: k)).map (fun cite => lstripChar '@' (pyStrip cite)) = keys := by
  induction keys with
  | nil => rfl
  | cons k ks ih =>
    simp only [List.map_cons]
    rw [ih (fun q hq => hk q (List.mem_cons_of_mem _ hq))]
    have hkk := hk k (List.mem_cons_self k ks)
    have hws : ∀ c ∈ ('@' :: k), isPyWhitespace c = false := by
      intro c hc
      rcases List.mem_cons.mp hc with rfl | hc
      · decide
      · exact citeKey_not_ws (hkk.2 c hc)
    rw [pyStrip_eq_self hws, lstripChar_at_cite hkk.2]

theorem pmc_of_joined_keys {keys : List Chars} (hne : keys ≠ [])
    (hk : ∀ k ∈ keys, k ≠ [] ∧ ∀ c ∈ k, isCiteKeyChar c = true) :
    md2tex.process_multiple_citations (joinWith [';'] (keys.map (fun k => '@' :: k))) =
      strChars "\\cite\x7b" ++ joinWith [','] keys ++ ['\x7d'] := by
  unfold md2tex.process_multiple_citations
  have hsplit : pySplit [';'] (joinWith [';'] (keys.map (fun k => '@' :: k))) =
      keys.map (fun k => '@' :: k) := by
    apply pySplit_single_join
    · cases keys with
      | nil => exact absurd rfl hne
      | cons k ks => simp
    · intro part hpt hmem
      rcases List.mem_map.mp hpt with ⟨k, hkm, rfl⟩
      rcases List.mem_cons.mp hmem with h | h
      · exact absurd h (by decide)
      · exact absurd ((hk k hkm).2 ';' h) (by decide)
  rw [hsplit, citeList_map_id hk]
  have hfilter : keys.filter (fun k => k ≠ []) = keys := by
    apply List.filter_eq_self.mpr
    intro a ha
    simp [(hk a ha).1]
  rw [hfilter]

theorem singleCite_pass_id {l : Chars} (f : Nat)
    (h : ∀ c ∈ l, (decide (c = '@')) = false) :
    subst md2tex.singleCiteMatch f l = l := by
  apply subst_id_of_no_trigger (fun c cs hc => singleCiteMatch_none (by simpa using hc)) f l h

/-- C9: bracketed citation conversion. For every nonempty list of citation keys
(each nonempty and made of `[a-zA-Z0-9_-]` characters), the citation pass turns
`[@k1;@k2;...]` into `\cite{k1,k2,...}`: the bracketed matcher fires before the
bare-`@` matcher, splits on `;`, strips whitespace and the leading `@`, drops
empty entries, and joins the keys with commas in order. -/
theorem C9_bracketed_citation_conversion (keys : List Chars) (hne : keys ≠ [])
    (hk : ∀ k ∈ keys, k ≠ [] ∧ ∀ c ∈ k, isCiteKeyChar c = true) :
    md2tex.process_citations_in_text
        ('[' :: joinWith [';'] (keys.map (fun k => '@' :: k)) ++ [']']) =
      strChars "\\cite\x7b" ++ joinWith [','] keys ++ ['\x7d'] := by
  have hchar : ∀ c ∈ joinWith [';'] (keys.map (fun k => '@' :: k)),
      c = ';' ∨ c = '@' ∨ isCiteKeyChar c = true := by
    intro c hc
    rcases mem_joinWith hc with hc | ⟨p, hp, hcp⟩
    · left
      simpa using hc
    · rcases List.mem_map.mp hp with ⟨k, hkm, rfl⟩
      rcases List.mem_cons.mp hcp with rfl | hck
      · right; left; rfl
      · right; right; exact (hk k hkm).2 c hck
  have hrb : ∀ c ∈ joinWith [';'] (keys.map (fun k => '@' :: k)), c ≠ ']' := by
    intro c hc
    rcases hchar c hc with rfl | rfl | h
    · decide
    · decide
    · exact citeKey_ne h (by decide)
  have hhead : (joinWith [';'] (keys.map (fun k => '@' :: k))).head? = some '@' := by
    cases keys with
    | nil => exact absurd rfl hne
    | cons k ks =>
      cases ks with
      | nil => rfl
      | cons k2 ks2 => rfl
  have hlen : 2 ≤ (joinWith [';'] (keys.map (fun k => '@' :: k))).length := by
    cases keys with
    | nil => exact absurd rfl hne
    | cons k ks =>
      cases ks with
      | nil =>
        have hkne : k ≠ [] := (hk k (List.mem_cons_self k [])).1
        have hpos : 1 ≤ k.length := List.length_pos.mpr hkne
        show 2 ≤ ('@' :: k).length
        simp only [List.length_cons]
        omega
      | cons k2 ks2 =>
        show 2 ≤ (('@' :: k) ++ [';'] ++
          joinWith [';'] (('@' :: k2) :: ks2.map (fun q => '@' :: q))).length
        simp only [List.length_append, List.length_cons]
        omega
  have hmatch := bracketedCiteMatch_spec hlen hhead hrb
  have hstep1 : subst md2tex.bracketedCiteMatch
      ('[' :: joinWith [';'] (keys.map (fun k => '@' :: k)) ++ [']']).length
      ('[' :: joinWith [';'] (keys.map (fun k => '@' :: k)) ++ [']']) =
      md2tex.process_multiple_citations (joinWith [';'] (keys.map (fun k => '@' :: k))) := by
    show subst md2tex.bracketedCiteMatch
      ((joinWith [';'] (keys.map (fun k => '@' :: k)) ++ [']']).length + 1)
      ('[' :: joinWith [';'] (keys.map (fun k => '@' :: k)) ++ [']']) = _
    simp only [subst, List.append_eq, hmatch]
    rw [subst_nil]
    simp
  have hpmc := pmc_of_joined_keys hne hk
  have hnoAt : ∀ c ∈ (strChars "\\cite\x7b" ++ joinWith [','] keys ++ ['\x7d'] : Chars),
      (decide (c = '@')) = false := by
    intro c hc
    have hcne : c ≠ '@' := by
      rcases List.mem_append.mp hc with hc | hc
      · rcases List.mem_append.mp hc with hc | hc
        · rw [show strChars "\\cite\x7b" = ['\\', 'c', 'i', 't', 'e', '\x7b'] from rfl] at hc
          simp only [List.mem_cons, List.not_mem_nil, or_false] at hc
          rcases hc with rfl | rfl | rfl | rfl | rfl | rfl <;> decide
        · rcases mem_joinWith hc with hc | ⟨k, hkm, hck⟩
          · simp only [List.mem_cons, List.not_mem_nil, or_false] at hc
            subst hc
            decide
          · exact citeKey_ne ((hk k hkm).2 c hck) (by decide)
      · simp only [List.mem_cons, List.not_mem_nil, or_false] at hc
        subst hc
        decide
    simp [hcne]
  simp only [md2tex.process_citations_in_text]
  rw [hstep1, hpmc]
  exact singleCite_pass_id _ hnoAt

theorem C9_bracketed_citation_conversion_witness :
    ([strChars "smith2023", strChars "jones2022"] ≠ ([] : List Chars)) ∧
    md2tex.process_citations_in_text (strChars "[@smith2023;@jones2022]") =
      strChars "\\cite\x7bsmith2023,jones2022\x7d" := by
  refine ⟨by decide, ?_⟩
  have h := C9_bracketed_citation_conversion [strChars "smith2023", strChars "jones2022"]
    (by decide) (by decide)
  exact h

/-- C5: table environment selection. (1) The environment name chosen by
`determine_table_environment` is `sidewaystable(*)` for rotated supplementary
tables, `stable(*)` for unrotated supplementary tables and `table(*)` otherwise,
with `*` exactly for double width. (2) A truthy rotation on a non-supplementary
table instead wraps the tabular in `\rotatebox\x7b<deg>\x7d\x7b...\x7d`: the opening
`\rotatebox\x7bdeg\x7d\x7b%` and closing `\x7d%` lines both appear in the emitted line
list. (3) In supplementary mode, every conversion step that renders a table
pushes `\newpage` as the most recent output line, so the table environment is
followed by `\newpage`. (4) The spec scenario (2-column, 2-row table with
`\x7b#tbl:x rotate=90\x7d **My Table.**` caption) yields exactly a
`sidewaystable` environment with `\label\x7btbl:x\x7d` followed by `\newpage` on
supplementary content, and a `table` environment wrapping the tabular in
`\rotatebox\x7b90\x7d\x7b%` ... `\x7d%` otherwise. -/
theorem C5_table_environment_selection :
    (∀ (width : Chars) (rot : Option Nat) (supp : Bool),
      (table_processor.determine_table_environment width rot supp).1 =
        if supp = true then
          (if optNatTruthy rot = true then
            (if width = strChars "double" then strChars "sidewaystable*"
             else strChars "sidewaystable")
           else
            (if width = strChars "double" then strChars "stable*" else strChars "stable"))
        else
          (if width = strChars "double" then strChars "table*" else strChars "table")) ∧
    (∀ (headers : List Chars) (data_rows : List (List Chars)) (caption : Option Chars)
        (width : Chars) (tid : Option Chars) (pbc : PyDict) (rot : Option Nat),
      optNatTruthy rot = true →
      (strChars "\\rotatebox\x7b" ++ natChars (rot.getD 0) ++ strChars "\x7d\x7b%") ∈
          table_processor.generateLatexTableLines headers data_rows caption width tid
            pbc rot false ∧
        strChars "\x7d%" ∈
          table_processor.generateLatexTableLines headers data_rows caption width tid
            pbc rot false) ∧
    (∀ (pbc : PyDict) (f : Nat) (prev : Option Chars) (accRev : List Chars)
        (line sepLine : Chars) (rest2 : List Chars),
      md2tex.isTableStart line (sepLine :: rest2) = true →
      ∃ prev' acc' rest',
        table_processor.tablesGo pbc true (f + 1) prev accRev (line :: sepLine :: rest2) =
          table_processor.tablesGo pbc true f prev'
            (strChars "\\newpage" :: acc') rest') ∧
    table_processor.convert_tables_to_latex
        (strChars "| A | B |\n|---|---|\n| 1 | 2 |\n\n\x7b#tbl:x rotate=90\x7d **My Table.**")
        [] true =
      strChars "\\begin\x7bsidewaystable\x7d[ht]\n\\centering\n\\begin\x7btabular\x7d\x7b|l|l|\x7d\n\\hline\nA & B \\\\\n\\hline\n1 & 2 \\\\\n\\hline\n\\end\x7btabular\x7d\n\\raggedright\n\\caption\x7b\\textbf\x7bMy Table.\x7d\x7d\n\\label\x7btbl:x\x7d\n\\end\x7bsidewaystable\x7d\n\\newpage" ∧
    table_processor.convert_tables_to_latex
        (strChars "| A | B |\n|---|---|\n| 1 | 2 |\n\n\x7b#tbl:x rotate=90\x7d **My Table.**")
        [] false =
      strChars "\\begin\x7btable\x7d[ht]\n\\centering\n\\rotatebox\x7b90\x7d\x7b%\n\\begin\x7btabular\x7d\x7b|l|l|\x7d\n\\hline\nA & B \\\\\n\\hline\n1 & 2 \\\\\n\\hline\n\\end\x7btabular\x7d\n\x7d%\n\\raggedright\n\\caption\x7b\\textbf\x7bMy Table.\x7d\x7d\n\\label\x7btbl:x\x7d\n\\end\x7btable\x7d" := by
  refine ⟨?_, ?_, ?_, rfl, rfl⟩
  · intro width rot supp
    cases supp <;> cases hrot : optNatTruthy rot <;>
      simp [table_processor.determine_table_environment, hrot]
  · intro headers data_rows caption width tid pbc rot hrot
    by_cases hw : width = strChars "double"
    · have hsw : startsWithChars (strChars "sideways") (strChars "table*") = false := by
        decide
      constructor <;>
        simp [table_processor.generateLatexTableLines,
          table_processor.determine_table_environment, hrot, hw, hsw]
    · have hsw : startsWithChars (strChars "sideways") (strChars "table") = false := by
        decide
      constructor <;>
        simp [table_processor.generateLatexTableLines,
          table_processor.determine_table_environment, hrot, hw, hsw]
  · intro pbc f prev accRev line sepLine rest2 hstart
    simp only [table_processor.tablesGo, hstart, if_true, ite_true]
    rw [List.reverse_append]
    exact ⟨_, _, _, rfl⟩

theorem C5_table_environment_selection_witness :
    optNatTruthy (some 90) = true ∧
    md2tex.isTableStart (strChars "| A | B |") [strChars "|---|---|", strChars "| 1 | 2 |"] = true ∧
    (strChars "\\rotatebox\x7b" ++ natChars ((some 90 : Option Nat).getD 0) ++
        strChars "\x7d\x7b%") ∈
      table_processor.generateLatexTableLines [strChars "A"] [[strChars "1"]]
        (some (strChars "Cap")) (strChars "single") (some (strChars "tbl:x")) []
        (some 90) false ∧
    (∃ prev' acc' rest',
      table_processor.tablesGo [] true (0 + 1) none []
          (strChars "| A | B |" :: strChars "|---|---|" :: [strChars "| 1 | 2 |"]) =
        table_processor.tablesGo [] true 0 prev' (strChars "\\newpage" :: acc') rest') := by
  refine ⟨by decide, by decide, ?_, ?_⟩
  · exact (C5_table_environment_selection.2.1 [strChars "A"] [[strChars "1"]]
      (some (strChars "Cap")) (strChars "single") (some (strChars "tbl:x")) []
      (some 90) (by decide)).1
  · exact C5_table_environment_selection.2.2.1 [] 0 none [] (strChars "| A | B |")
      (strChars "|---|---|") [strChars "| 1 | 2 |"] (by decide)
